import Mathlib

/-!
Verification development for the wp-local-remote-sync repository.

Strings handled by the Python code are embedded as Lean `String` /
`List Char`.  Every definition is a direct translation of a function of
the repository (file and line references are given in the doc comments);
external collaborators (git, WP-CLI, SSH/SFTP, the OS file system) are
embedded as explicit environment records whose fields stand for the
answers those collaborators give, and a failing external command is
modelled as having no effect on the world.
-/

namespace WpSync

/-! ### Python fnmatch (Python stdlib, POSIX behaviour)

`src/src/utils/patterns.py` delegates glob matching to `fnmatch.fnmatch`.
On POSIX `os.path.normcase` is the identity, so `fnmatch.fnmatch` is the
case-sensitive glob matcher implemented here: `*` matches any sequence,
`?` any single character, `[...]` a character class (leading `!` negates,
a `]` right after the opening bracket is literal, `a-b` is a range, an
unterminated class makes `[` a literal). -/

/-- Scan a class body up to the first unescaped `]`; returns the body and
the remainder of the pattern, or `none` when no `]` follows. -/
def scanClose : List Char → Option (List Char × List Char)
  | [] => none
  | ']' :: rest => some ([], rest)
  | c :: rest =>
    match scanClose rest with
    | some (body, after) => some (c :: body, after)
    | none => none

theorem scanClose_length : ∀ (xs body rest : List Char),
    scanClose xs = some (body, rest) → rest.length < xs.length := by
  intro xs
  induction xs with
  | nil => intro body rest h; simp [scanClose] at h
  | cons c cs ih =>
    intro body rest h
    by_cases hc : c = ']'
    · subst hc
      simp [scanClose] at h
      simp [← h.2]
    · rw [show scanClose (c :: cs) =
          (match scanClose cs with
           | some (body, after) => some (c :: body, after)
           | none => none) by
        cases c <;> simp_all [scanClose]] at h
      cases hcs : scanClose cs with
      | none => rw [hcs] at h; simp at h
      | some pr =>
        rw [hcs] at h
        simp at h
        have := ih pr.1 pr.2 (by rw [hcs])
        have hr : rest = pr.2 := by
          cases pr; simp_all
        rw [hr]
        exact Nat.lt_succ_of_lt this

/-- Class-body extraction: a `]` immediately after the (possibly negated)
opening bracket is part of the set, as in CPython's `fnmatch.translate`. -/
def splitClassCore : List Char → Option (List Char × List Char)
  | ']' :: t =>
    match scanClose t with
    | some (body, rest) => some (']' :: body, rest)
    | none => none
  | ys => scanClose ys

theorem splitClassCore_length : ∀ (xs body rest : List Char),
    splitClassCore xs = some (body, rest) → rest.length < xs.length := by
  intro xs body rest h
  match xs, h with
  | ']' :: t, h =>
    rw [splitClassCore] at h
    cases hct : scanClose t with
    | none => rw [hct] at h; simp at h
    | some pr =>
      rw [hct] at h
      simp at h
      have := scanClose_length t pr.1 pr.2 (by rw [hct])
      have hr : rest = pr.2 := by cases pr; simp_all
      rw [hr]
      exact Nat.lt_succ_of_lt this
  | [], h => simp [splitClassCore, scanClose] at h
  | c :: t, h =>
    by_cases hc : c = ']'
    · subst hc
      rw [splitClassCore] at h
      cases hct : scanClose t with
      | none => rw [hct] at h; simp at h
      | some pr =>
        rw [hct] at h
        simp at h
        have := scanClose_length t pr.1 pr.2 (by rw [hct])
        have hr : rest = pr.2 := by cases pr; simp_all
        rw [hr]
        exact Nat.lt_succ_of_lt this
    · have he : splitClassCore (c :: t) = scanClose (c :: t) := by
        cases c <;> simp_all [splitClassCore]
      rw [he] at h
      exact scanClose_length _ _ _ h

/-- Parse the text after an opening `[`: negation flag, class body, and
the pattern remainder; `none` when the class is unterminated. -/
def splitClass : List Char → Option (Bool × List Char × List Char)
  | '!' :: ys =>
    match splitClassCore ys with
    | some (body, rest) => some (true, body, rest)
    | none => none
  | ys =>
    match splitClassCore ys with
    | some (body, rest) => some (false, body, rest)
    | none => none

theorem splitClass_length : ∀ (xs : List Char) (neg : Bool) (body rest : List Char),
    splitClass xs = some (neg, body, rest) → rest.length < xs.length := by
  intro xs neg body rest h
  match xs, h with
  | '!' :: ys, h =>
    rw [splitClass] at h
    cases hc : splitClassCore ys with
    | none => rw [hc] at h; simp at h
    | some pr =>
      rw [hc] at h
      simp at h
      have := splitClassCore_length ys pr.1 pr.2 (by rw [hc])
      have hr : rest = pr.2 := by cases pr; simp_all
      rw [hr]
      exact Nat.lt_succ_of_lt this
  | [], h => simp [splitClass, splitClassCore, scanClose] at h
  | c :: ys, h =>
    by_cases hc : c = '!'
    · subst hc
      rw [splitClass] at h
      cases hcs : splitClassCore ys with
      | none => rw [hcs] at h; simp at h
      | some pr =>
        rw [hcs] at h
        simp at h
        have := splitClassCore_length ys pr.1 pr.2 (by rw [hcs])
        have hr : rest = pr.2 := by cases pr; simp_all
        rw [hr]
        exact Nat.lt_succ_of_lt this
    · have he : splitClass (c :: ys) =
          (match splitClassCore (c :: ys) with
           | some (body, rest) => some (false, body, rest)
           | none => none) := by
        cases c <;> simp_all [splitClass]
      rw [he] at h
      cases hcs : splitClassCore (c :: ys) with
      | none => rw [hcs] at h; simp at h
      | some pr =>
        rw [hcs] at h
        simp at h
        have := splitClassCore_length (c :: ys) pr.1 pr.2 (by rw [hcs])
        have hr : rest = pr.2 := by cases pr; simp_all
        rw [hr]
        exact this

/-- Membership of a character in a class body; `a-b` is a range, a `-`
that is first or last is a literal, a reversed range matches nothing. -/
def classMatches : List Char → Char → Bool
  | [], _ => false
  | a :: '-' :: b :: rest, c =>
    (a.val ≤ c.val && c.val ≤ b.val) || classMatches rest c
  | a :: rest, c => (a == c) || classMatches rest c

/-- Full-anchored glob match, pattern first (CPython translates the
pattern to the regex `(?s:pat)\Z` and applies `re.match`).  The `fuel`
argument only makes the recursion structural; every recursive call
shrinks `pat.length + s.length`, so the fuel `globMatch` passes is never
exhausted. -/
def globGo (fuel : Nat) (pat s : List Char) : Bool :=
  match fuel with
  | 0 => false
  | fuel + 1 =>
    match pat, s with
    | [], [] => true
    | [], _ :: _ => false
    | '*' :: ps, [] => globGo fuel ps []
    | '*' :: ps, c :: s' => globGo fuel ps (c :: s') || globGo fuel ('*' :: ps) s'
    | '?' :: _, [] => false
    | '?' :: ps, _ :: s' => globGo fuel ps s'
    | '[' :: ps, s =>
      match splitClass ps with
      | some (neg, body, rest) =>
        match s with
        | [] => false
        | c :: s' => (neg != classMatches body c) && globGo fuel rest s'
      | none =>
        match s with
        | '[' :: s' => globGo fuel ps s'
        | _ => false
    | _ :: _, [] => false
    | p :: ps, c :: s' => (p == c) && globGo fuel ps s'

/-- Glob matching with sufficient fuel. -/
def globMatch (pat s : List Char) : Bool := globGo (pat.length + s.length + 1) pat s

/-- Python `fnmatch.fnmatch(name, pattern)` (POSIX). -/
def fnmatch (name pat : List Char) : Bool := globMatch pat name

/-! ### src/src/utils/patterns.py -/

/-- Python `s.replace('\\', '/')`: for the single characters involved this
is a character map. -/
def normalizeSep (p : List Char) : List Char :=
  p.map (fun c => if c == '\\' then '/' else c)

/-- Python `needle in haystack` (substring containment). -/
def hasSub (needle : List Char) : List Char → Bool
  | [] => needle.isPrefixOf []
  | c :: cs => needle.isPrefixOf (c :: cs) || hasSub needle cs

/-- Python `pathlib.Path(p).name` on a slash-normalized path: the last
path component, after pathlib drops empty and single-dot components. -/
def pathName (p : List Char) : List Char :=
  ((p.splitOn '/').filter (fun c => !c.isEmpty && c != ['.'])).getLast?.getD []

/-- Function `should_exclude` of src/src/utils/patterns.py (lines 8-41):
a path is excluded when, after separator normalization of both path and
pattern, the pattern fnmatches the whole path, or a directory pattern
(trailing slash) occurs as a path segment, or the pattern fnmatches the
final path component. -/
def shouldExcludeL (file_path : List Char) (exclude_patterns : List (List Char)) : Bool :=
  let fp := normalizeSep file_path
  exclude_patterns.any (fun pat0 =>
    let pat := normalizeSep pat0
    fnmatch fp pat ||
      ((pat.getLast? == some '/') && hasSub ('/' :: pat) ('/' :: (fp ++ ['/']))) ||
      fnmatch (pathName fp) pat)

/-- String-level wrapper for `should_exclude`. -/
def should_exclude (file_path : String) (exclude_patterns : List String) : Bool :=
  shouldExcludeL file_path.toList (exclude_patterns.map String.toList)

/-- Function `filter_files` of src/src/utils/patterns.py (lines 44-55):
the list comprehension keeping the files that are not excluded. -/
def filter_files (files : List String) (exclude_patterns : List String) : List String :=
  files.filter (fun f => !should_exclude f exclude_patterns)

/-! ### src/src/models/database_config.py, `DatabaseConfig.normalize_url` -/

/-- Python `str.isspace` members stripped by `str.strip()` (ASCII part;
the URLs handled by the tool contain no exotic Unicode spacing). -/
def pyIsSpace (c : Char) : Bool :=
  c == ' ' || c == '\t' || c == '\n' || c == '\r' || c == '\x0b' || c == '\x0c'

/-- Python `url.strip()`. -/
def stripWs (p : List Char) : List Char :=
  ((p.dropWhile pyIsSpace).reverse.dropWhile pyIsSpace).reverse

/-- Python `url.rstrip('/')`. -/
def rstripSlash (p : List Char) : List Char :=
  (p.reverse.dropWhile (fun c => c == '/')).reverse

/-- Lines 66-70 of database_config.py: repair of the malformations
`https:/` and `http:/`; since the guard ensures the text starts with the
malformed schema, `replace(..., 1)` rewrites exactly that leading part. -/
def fixSchemaSlash (u : List Char) : List Char :=
  if "https:/".toList.isPrefixOf u && !("https://".toList.isPrefixOf u) then
    "https://".toList ++ u.drop 7
  else if "http:/".toList.isPrefixOf u && !("http://".toList.isPrefixOf u) then
    "http://".toList ++ u.drop 6
  else u

/-- Python regex check of line 73: whether the anchored pattern for an
http or https schema followed by at least one character matches; `.` in
the regex does not match a newline. -/
def matchesUrlRe (u : List Char) : Bool :=
  ("http://".toList.isPrefixOf u &&
    (match u.drop 7 with | [] => false | c :: _ => c != '\n')) ||
  ("https://".toList.isPrefixOf u &&
    (match u.drop 8 with | [] => false | c :: _ => c != '\n'))

/-- Static method `DatabaseConfig.normalize_url` of
src/src/models/database_config.py (lines 42-77). -/
def normalizeUrlL (url : List Char) : List Char :=
  if url.isEmpty then []
  else
    let u := fixSchemaSlash (rstripSlash (stripWs url))
    if matchesUrlRe u then u else []

/-- String-level wrapper for `DatabaseConfig.normalize_url`. -/
def normalize_url (url : String) : String := String.mk (normalizeUrlL url.toList)

/-- The same path rendered with backslash separators. -/
def backslashify (p : String) : String :=
  String.mk (p.toList.map (fun c => if c == '/' then '\\' else c))

theorem normalizeSep_backslashify (l : List Char) (h : '\\' ∉ l) :
    normalizeSep (l.map (fun c => if c == '/' then '\\' else c)) = normalizeSep l := by
  unfold normalizeSep
  rw [List.map_map]
  refine List.map_congr_left (fun c hc => ?_)
  have hcb : c ≠ '\\' := fun he => h (he ▸ hc)
  by_cases hcs : c = '/'
  · subst hcs; simp
  · simp [Function.comp, hcs, hcb]

theorem shouldExcludeL_congr (l₁ l₂ : List Char) (pats : List (List Char))
    (h : normalizeSep l₁ = normalizeSep l₂) :
    shouldExcludeL l₁ pats = shouldExcludeL l₂ pats := by
  unfold shouldExcludeL
  rw [h]

/-- C4: `filter_files` keeps exactly the inputs that `should_exclude`
rejects, in order (a sublist of the input); `should_exclude` answers the
same for a path rendered with backslash separators as for its
forward-slash rendering; and on the pattern set `*.log`, `.git/`, `*.sql`
the filter removes exactly the matching paths of a sample list. -/
theorem filter_files_spec :
    (∀ (files pats : List String) (f : String),
        (f ∈ filter_files files pats ↔ f ∈ files ∧ should_exclude f pats = false) ∧
        List.Sublist (filter_files files pats) files) ∧
    (∀ (p : String) (pats : List String), '\\' ∉ p.toList →
        should_exclude (backslashify p) pats = should_exclude p pats) ∧
    filter_files ["a.log", "x/y.php", ".git/config", "db.sql", "wp-content/debug.log", "notes.txt"]
        ["*.log", ".git/", "*.sql"] = ["x/y.php", "notes.txt"] := by
  refine ⟨fun files pats f => ⟨?_, ?_⟩, fun p pats hp => ?_, by decide⟩
  · simp [filter_files, List.mem_filter]
  · exact List.filter_sublist files
  · unfold should_exclude backslashify
    exact shouldExcludeL_congr _ _ _ (normalizeSep_backslashify p.toList hp)

/-- Witness for `filter_files_spec`: the separator-invariance part at a
concrete path and pattern set. -/
theorem filter_files_spec_witness :
    should_exclude (backslashify "wp-content/debug.log") ["*.log", ".git/", "*.sql"] =
      should_exclude "wp-content/debug.log" ["*.log", ".git/", "*.sql"] :=
  filter_files_spec.2.1 "wp-content/debug.log" ["*.log", ".git/", "*.sql"] (by decide)

/-- C5: `normalize_url` repairs `"https:/example.com/"` to
`"https://example.com"`, maps the empty string to the empty string, and
maps every input that after trimming and slash-fixing does not start
with `http://` or `https://` to the empty string. -/
theorem normalize_url_spec :
    normalize_url "https:/example.com/" = "https://example.com" ∧
    normalize_url "" = "" ∧
    (∀ url : String,
        "http://".toList.isPrefixOf (fixSchemaSlash (rstripSlash (stripWs url.toList))) = false →
        "https://".toList.isPrefixOf (fixSchemaSlash (rstripSlash (stripWs url.toList))) = false →
        normalize_url url = "") := by
  refine ⟨by decide, by decide, fun url h1 h2 => ?_⟩
  unfold normalize_url normalizeUrlL
  have hm : matchesUrlRe (fixSchemaSlash (rstripSlash (stripWs url.toList))) = false := by
    unfold matchesUrlRe
    rw [h1, h2]
    simp
  have hm' : matchesUrlRe (fixSchemaSlash (rstripSlash (stripWs url.data))) = false := hm
  by_cases he : url.toList.isEmpty
  · rw [if_pos he]
  · rw [if_neg he, if_neg (by simp [hm'])]

/-- Witness for `normalize_url_spec`: a schema-less input is rejected. -/
theorem normalize_url_spec_witness : normalize_url "example.com" = "" :=
  normalize_url_spec.2.2 "example.com" (by decide) (by decide)

/-! ### src/src/services/database_service.py, `replace_table_prefix_in_sql`

Lines 624-683: the method reads the dump, then for seven regexes of the
shape `MARKER (`|")OLD` applies `re.subn`, substituting `MARKER \1NEW`,
and writes the result back.  `re.subn` rewrites the leftmost
non-overlapping matches from left to right, and for these patterns (the
marker and the old prefix contain no regex metacharacters when the
prefixes are ordinary WordPress prefixes such as `wp_`) that is the
literal scanner `subnP` below. -/

/-- Attempt to match `marker (`|")oldp` at the head of `xs`; on success
return the matched delimiter and the text after the old prefix. -/
def matchPat (marker oldp : List Char) (xs : List Char) : Option (Char × List Char) :=
  if marker.isPrefixOf xs then
    match xs.drop marker.length with
    | d :: ys =>
      if (d == '`' || d == '"') && oldp.isPrefixOf ys then
        some (d, ys.drop oldp.length)
      else none
    | [] => none
  else none

theorem matchPat_length {marker oldp xs : List Char} {d : Char} {rest : List Char}
    (h : matchPat marker oldp xs = some (d, rest)) : rest.length < xs.length := by
  unfold matchPat at h
  by_cases hp : marker.isPrefixOf xs
  · rw [if_pos hp] at h
    cases hd : xs.drop marker.length with
    | nil => rw [hd] at h; simp at h
    | cons d' ys =>
      rw [hd] at h
      dsimp only at h
      by_cases hc : ((d' == '`' || d' == '"') && oldp.isPrefixOf ys) = true
      · rw [if_pos hc] at h
        simp at h
        have h1 : rest = ys.drop oldp.length := h.2.symm
        have h1' : rest.length = (ys.drop oldp.length).length := by rw [h1]
        have h2 : ys.length < xs.length := by
          have := congrArg List.length hd
          simp at this
          omega
        have h3 : (ys.drop oldp.length).length ≤ ys.length := by
          simp
        omega
      · rw [if_neg hc] at h; simp at h
  · rw [if_neg hp] at h; simp at h

/-- One `re.subn` pass: rewrite every leftmost non-overlapping occurrence
of `marker (`|")oldp` to `marker` delimiter `newp`, left to right. -/
def subnP (marker oldp newp : List Char) : List Char → List Char
  | [] => []
  | x :: xs =>
    match h : matchPat marker oldp (x :: xs) with
    | some (d, rest) => marker ++ [d] ++ newp ++ subnP marker oldp newp rest
    | none => x :: subnP marker oldp newp xs
termination_by l => l.length
decreasing_by
  · exact matchPat_length h
  · simp

/-- Marker of the `CREATE TABLE` pattern. -/
def mCREATE : List Char := "CREATE TABLE ".toList

/-- Marker of the `DROP TABLE IF EXISTS` pattern. -/
def mDROP : List Char := "DROP TABLE IF EXISTS ".toList

/-- Marker of the `INSERT INTO` pattern. -/
def mINSERT : List Char := "INSERT INTO ".toList

/-- Marker of the `LOCK TABLES` pattern. -/
def mLOCK : List Char := "LOCK TABLES ".toList

/-- Marker of the `UNLOCK TABLES` pattern. -/
def mUNLOCK : List Char := "UNLOCK TABLES ".toList

/-- Marker of the `ALTER TABLE` pattern. -/
def mALTER : List Char := "ALTER TABLE ".toList

/-- Marker of the `REFERENCES` pattern. -/
def mREFERENCES : List Char := "REFERENCES ".toList

/-- The seven patterns, in the order the source applies them. -/
def tpMarkers : List (List Char) :=
  [mCREATE, mDROP, mINSERT, mLOCK, mUNLOCK, mALTER, mREFERENCES]

/-- Content transformation of `replace_table_prefix_in_sql`
(database_service.py lines 624-683): identical prefixes leave the dump
untouched, otherwise the seven substitution passes run in order. -/
def replaceTablePfxInSql (oldp newp content : List Char) : List Char :=
  if oldp == newp then content
  else tpMarkers.foldl (fun acc m => subnP m oldp newp acc) content

theorem subnP_nil (marker oldp newp : List Char) : subnP marker oldp newp [] = [] := by
  rw [subnP]

theorem matchPat_nil_eq_none (marker oldp : List Char) : matchPat marker oldp [] = none := by
  unfold matchPat
  by_cases hp : marker.isPrefixOf []
  · rw [if_pos hp]
    simp
  · rw [if_neg hp]

theorem subnP_some_step {marker oldp : List Char} {d : Char} {xs rest : List Char}
    (newp : List Char) {w : List Char}
    (hm : matchPat marker oldp xs = some (d, rest))
    (hw : subnP marker oldp newp rest = w) :
    subnP marker oldp newp xs = marker ++ ([d] ++ (newp ++ w)) := by
  match xs with
  | [] => rw [matchPat_nil_eq_none] at hm; exact absurd hm (by simp)
  | x :: xs' =>
    rw [subnP]
    split
    next d' rest' heq =>
      rw [hm] at heq
      have hd : d' = d := by cases heq; rfl
      have hr : rest' = rest := by cases heq; rfl
      subst hd hr
      rw [hw]
      simp
    next heq =>
      rw [hm] at heq
      cases heq

theorem subnP_none_step {marker oldp : List Char} {x : Char} {v : List Char}
    (newp : List Char) {w : List Char}
    (hn : matchPat marker oldp (x :: v) = none)
    (hw : subnP marker oldp newp v = w) :
    subnP marker oldp newp (x :: v) = x :: w := by
  rw [subnP]
  split
  next d' rest' heq =>
    rw [hn] at heq
    cases heq
  next heq =>
    rw [hw]

theorem matchPat_none_head {marker : List Char} {mh : Char} {mt : List Char} {x : Char}
    (oldp : List Char) (xs : List Char)
    (hm : marker = mh :: mt) (hx : x ≠ mh) :
    matchPat marker oldp (x :: xs) = none := by
  subst hm
  unfold matchPat
  rw [if_neg ?_]
  simp [List.isPrefixOf]
  intro hc
  exact absurd hc.symm hx

theorem subnP_chunk_step {marker : List Char} {mh : Char} {mt : List Char}
    (oldp newp : List Char) {u v w : List Char}
    (hm : marker = mh :: mt) (hu : mh ∉ u)
    (hw : subnP marker oldp newp v = w) :
    subnP marker oldp newp (u ++ v) = u ++ w := by
  induction u with
  | nil => simpa using hw
  | cons x u' ih =>
    have hx : x ≠ mh := fun he => hu (he ▸ List.mem_cons_self x u')
    have hu' : mh ∉ u' := fun hmem => hu (List.mem_cons_of_mem x hmem)
    have := subnP_none_step newp
      (matchPat_none_head oldp (u' ++ v) hm hx) (ih hu')
    simpa using this

theorem subnP_self {marker : List Char} {mh : Char} {mt : List Char}
    (oldp newp : List Char) {xs : List Char}
    (hm : marker = mh :: mt) (hu : mh ∉ xs) :
    subnP marker oldp newp xs = xs := by
  have := subnP_chunk_step oldp newp hm hu (subnP_nil marker oldp newp)
  simpa using this

theorem matchPat_head {marker : List Char} {mh : Char} {mt : List Char}
    (oldp : List Char) {d : Char} (rest : List Char)
    (hm : marker = mh :: mt) (hd : (d == '`' || d == '"') = true) :
    matchPat marker oldp (marker ++ ([d] ++ (oldp ++ rest))) = some (d, rest) := by
  unfold matchPat
  rw [if_pos ?_]
  · have hdrop : (marker ++ ([d] ++ (oldp ++ rest))).drop marker.length =
        d :: (oldp ++ rest) := by
      rw [List.drop_left]
      rfl
    rw [hdrop]
    dsimp only
    rw [if_pos ?_]
    · rw [List.drop_left]
    · rw [hd]
      simp [List.isPrefixOf_iff_prefix]
  · simp [List.isPrefixOf_iff_prefix]

theorem subnP_match_step {marker : List Char} {mh : Char} {mt : List Char}
    {oldp : List Char} {d : Char} (newp : List Char) {rest w : List Char}
    (hm : marker = mh :: mt) (hd : (d == '`' || d == '"') = true)
    (hw : subnP marker oldp newp rest = w) :
    subnP marker oldp newp (marker ++ ([d] ++ (oldp ++ rest))) =
      marker ++ ([d] ++ (newp ++ w)) :=
  subnP_some_step newp (matchPat_head oldp rest hm hd) hw

/-- Uppercase ASCII letter test; every marker starts with one. -/
def isUpperAZ (c : Char) : Bool := 'A' ≤ c && c ≤ 'Z'

/-- Table-name delimiter accepted by the seven regexes. -/
def isDelim (c : Char) : Bool := c == '`' || c == '"'

/-- Typical WordPress table-name text: lowercase letters, digits and
underscores. -/
def goodName (t : List Char) : Bool :=
  t.all (fun c => ('a' ≤ c && c ≤ 'z') || ('0' ≤ c && c ≤ '9') || c == '_')

/-- Dump text that contains no further statement markers: no uppercase
ASCII letter at all (SQL keywords outside the three statements may be
written in lowercase). -/
def inertText (s : List Char) : Bool := s.all (fun c => !isUpperAZ c)

theorem goodName_not_mem {t : List Char} {c : Char}
    (h : goodName t = true) (hc : isUpperAZ c = true) : c ∉ t := by
  intro hmem
  have hp := (List.all_eq_true.mp h) c hmem
  simp only [isUpperAZ, Bool.and_eq_true, decide_eq_true_eq] at hc
  simp only [Bool.or_eq_true, Bool.and_eq_true, decide_eq_true_eq, beq_iff_eq] at hp
  rcases hp with (⟨h1, h2⟩ | ⟨h1, h2⟩) | h1
  · exact absurd (le_trans h1 hc.2) (by decide)
  · exact absurd (le_trans hc.1 h2) (by decide)
  · rw [h1] at hc
    exact absurd hc.2 (by decide)

theorem inert_not_mem {s : List Char} {c : Char}
    (h : inertText s = true) (hc : isUpperAZ c = true) : c ∉ s := by
  intro hmem
  have hp := (List.all_eq_true.mp h) c hmem
  rw [hc] at hp
  cases hp

theorem delim_not_mem {d c : Char}
    (hd : isDelim d = true) (hc : isUpperAZ c = true) : c ∉ [d] := by
  intro hmem
  have hcd : c = d := by simpa using hmem
  subst hcd
  simp only [isDelim, Bool.or_eq_true, beq_iff_eq] at hd
  rcases hd with h | h <;> rw [h] at hc <;> exact absurd hc (by decide)

theorem not_mem_append {c : Char} {u v : List Char}
    (hu : c ∉ u) (hv : c ∉ v) : c ∉ u ++ v := by
  intro hmem
  rcases List.mem_append.mp hmem with h | h
  · exact hu h
  · exact hv h

/-- Minimal dump skeleton with one `CREATE TABLE`, one `INSERT INTO` and
one `REFERENCES` clause; `p1 p2 p3` are the three table prefixes in
place, `d1 d2 d3` the delimiters, `t1 t2 t3` the table names and
`s0 s1 s2 s3` the surrounding dump text. -/
def tpDumpP (p1 p2 p3 : List Char) (d1 d2 d3 : Char)
    (t1 t2 t3 s0 s1 s2 s3 : List Char) : List Char :=
  s0 ++ (mCREATE ++ ([d1] ++ (p1 ++ (t1 ++ ([d1] ++ (s1 ++
    (mINSERT ++ ([d2] ++ (p2 ++ (t2 ++ ([d2] ++ (s2 ++
    (mREFERENCES ++ ([d3] ++ (p3 ++ (t3 ++ ([d3] ++ s3)))))))))))))))))

/-- The old table-name text the claim rewrites. -/
def wpOld : List Char := "wp_".toList

/-- The new table-name text the claim rewrites to. -/
def wpNew : List Char := "wp2_".toList

theorem matchPat_none_head3 {marker : List Char} {a b c : Char} {mt : List Char}
    {x y z : Char} (oldp tail : List Char)
    (hm : marker = a :: b :: c :: mt) (h : a ≠ x ∨ b ≠ y ∨ c ≠ z) :
    matchPat marker oldp (x :: y :: z :: tail) = none := by
  subst hm
  unfold matchPat
  have hp : ((a :: b :: c :: mt).isPrefixOf (x :: y :: z :: tail)) = false := by
    simp only [List.isPrefixOf, Bool.and_eq_true, beq_iff_eq,
      Bool.eq_false_iff, ne_eq, not_and]
    intro h1 h2 h3
    rcases h with hne | hne | hne
    · exact absurd h1 hne
    · exact absurd h2 hne
    · exact absurd h3 hne
  simp [hp]

theorem mCREATE_head : mCREATE = 'C' :: "REATE TABLE ".toList := rfl

theorem mDROP_head : mDROP = 'D' :: "ROP TABLE IF EXISTS ".toList := rfl

theorem mINSERT_head : mINSERT = 'I' :: "NSERT INTO ".toList := rfl

theorem mLOCK_head : mLOCK = 'L' :: "OCK TABLES ".toList := rfl

theorem mUNLOCK_head : mUNLOCK = 'U' :: "NLOCK TABLES ".toList := rfl

theorem mALTER_head : mALTER = 'A' :: "LTER TABLE ".toList := rfl

theorem mREFERENCES_head : mREFERENCES = 'R' :: "EFERENCES ".toList := rfl

theorem splitREF_atC (X : List Char) :
    mREFERENCES ++ X = "REFEREN".toList ++ ('C' :: ("ES ".toList ++ X)) := rfl

theorem splitCRE_atL (X : List Char) :
    mCREATE ++ X = "CREATE TAB".toList ++ ('L' :: ("E ".toList ++ X)) := rfl

theorem splitCRE_atA (X : List Char) :
    mCREATE ++ X =
      "CRE".toList ++ ('A' :: ("TE T".toList ++ ('A' :: ("BLE ".toList ++ X)))) := rfl

theorem splitCRE_atR (X : List Char) :
    mCREATE ++ X = "C".toList ++ ('R' :: ("EATE TABLE ".toList ++ X)) := rfl

theorem splitINS_atR (X : List Char) :
    mINSERT ++ X = "INSE".toList ++ ('R' :: ("T INTO ".toList ++ X)) := rfl

theorem passCREATE {d1 d2 d3 : Char} {t1 t2 t3 s0 s1 s2 s3 : List Char}
    (hd1 : isDelim d1 = true) (hd2 : isDelim d2 = true) (hd3 : isDelim d3 = true)
    (ht1 : goodName t1 = true) (ht2 : goodName t2 = true) (ht3 : goodName t3 = true)
    (hs0 : inertText s0 = true) (hs1 : inertText s1 = true)
    (hs2 : inertText s2 = true) (hs3 : inertText s3 = true) :
    subnP mCREATE wpOld wpNew (tpDumpP wpOld wpOld wpOld d1 d2 d3 t1 t2 t3 s0 s1 s2 s3) =
      tpDumpP wpNew wpOld wpOld d1 d2 d3 t1 t2 t3 s0 s1 s2 s3 := by
  unfold tpDumpP
  simp only [splitREF_atC]
  exact subnP_chunk_step _ _ mCREATE_head (inert_not_mem hs0 (by decide))
    (subnP_match_step _ mCREATE_head hd1
      (subnP_chunk_step _ _ mCREATE_head (goodName_not_mem ht1 (by decide))
        (subnP_chunk_step _ _ mCREATE_head (delim_not_mem hd1 (by decide))
          (subnP_chunk_step _ _ mCREATE_head (inert_not_mem hs1 (by decide))
            (subnP_chunk_step _ _ mCREATE_head (by decide)
              (subnP_chunk_step _ _ mCREATE_head (delim_not_mem hd2 (by decide))
                (subnP_chunk_step _ _ mCREATE_head (by decide)
                  (subnP_chunk_step _ _ mCREATE_head (goodName_not_mem ht2 (by decide))
                    (subnP_chunk_step _ _ mCREATE_head (delim_not_mem hd2 (by decide))
                      (subnP_chunk_step _ _ mCREATE_head (inert_not_mem hs2 (by decide))
                        (subnP_chunk_step _ _ mCREATE_head (by decide)
                          (subnP_none_step _
                            (matchPat_none_head3 _ _ mCREATE_head (by decide))
                            (subnP_chunk_step _ _ mCREATE_head (by decide)
                              (subnP_chunk_step _ _ mCREATE_head (delim_not_mem hd3 (by decide))
                                (subnP_chunk_step _ _ mCREATE_head (by decide)
                                  (subnP_chunk_step _ _ mCREATE_head (goodName_not_mem ht3 (by decide))
                                    (subnP_chunk_step _ _ mCREATE_head (delim_not_mem hd3 (by decide))
                                      (subnP_self _ _ mCREATE_head
                                        (inert_not_mem hs3 (by decide))))))))))))))))))))

theorem passDROP {d1 d2 d3 : Char} {t1 t2 t3 s0 s1 s2 s3 : List Char}
    (hd1 : isDelim d1 = true) (hd2 : isDelim d2 = true) (hd3 : isDelim d3 = true)
    (ht1 : goodName t1 = true) (ht2 : goodName t2 = true) (ht3 : goodName t3 = true)
    (hs0 : inertText s0 = true) (hs1 : inertText s1 = true)
    (hs2 : inertText s2 = true) (hs3 : inertText s3 = true) :
    subnP mDROP wpOld wpNew (tpDumpP wpNew wpOld wpOld d1 d2 d3 t1 t2 t3 s0 s1 s2 s3) =
      tpDumpP wpNew wpOld wpOld d1 d2 d3 t1 t2 t3 s0 s1 s2 s3 := by
  unfold tpDumpP
  exact subnP_chunk_step _ _ mDROP_head (inert_not_mem hs0 (by decide))
    (subnP_chunk_step _ _ mDROP_head (by decide)
      (subnP_chunk_step _ _ mDROP_head (delim_not_mem hd1 (by decide))
        (subnP_chunk_step _ _ mDROP_head (by decide)
          (subnP_chunk_step _ _ mDROP_head (goodName_not_mem ht1 (by decide))
            (subnP_chunk_step _ _ mDROP_head (delim_not_mem hd1 (by decide))
              (subnP_chunk_step _ _ mDROP_head (inert_not_mem hs1 (by decide))
                (subnP_chunk_step _ _ mDROP_head (by decide)
                  (subnP_chunk_step _ _ mDROP_head (delim_not_mem hd2 (by decide))
                    (subnP_chunk_step _ _ mDROP_head (by decide)
                      (subnP_chunk_step _ _ mDROP_head (goodName_not_mem ht2 (by decide))
                        (subnP_chunk_step _ _ mDROP_head (delim_not_mem hd2 (by decide))
                          (subnP_chunk_step _ _ mDROP_head (inert_not_mem hs2 (by decide))
                            (subnP_chunk_step _ _ mDROP_head (by decide)
                              (subnP_chunk_step _ _ mDROP_head (delim_not_mem hd3 (by decide))
                                (subnP_chunk_step _ _ mDROP_head (by decide)
                                  (subnP_chunk_step _ _ mDROP_head (goodName_not_mem ht3 (by decide))
                                    (subnP_chunk_step _ _ mDROP_head (delim_not_mem hd3 (by decide))
                                      (subnP_self _ _ mDROP_head
                                        (inert_not_mem hs3 (by decide))))))))))))))))))))

theorem passINSERT {d1 d2 d3 : Char} {t1 t2 t3 s0 s1 s2 s3 : List Char}
    (hd1 : isDelim d1 = true) (hd2 : isDelim d2 = true) (hd3 : isDelim d3 = true)
    (ht1 : goodName t1 = true) (ht2 : goodName t2 = true) (ht3 : goodName t3 = true)
    (hs0 : inertText s0 = true) (hs1 : inertText s1 = true)
    (hs2 : inertText s2 = true) (hs3 : inertText s3 = true) :
    subnP mINSERT wpOld wpNew (tpDumpP wpNew wpOld wpOld d1 d2 d3 t1 t2 t3 s0 s1 s2 s3) =
      tpDumpP wpNew wpNew wpOld d1 d2 d3 t1 t2 t3 s0 s1 s2 s3 := by
  unfold tpDumpP
  exact subnP_chunk_step _ _ mINSERT_head (inert_not_mem hs0 (by decide))
    (subnP_chunk_step _ _ mINSERT_head (by decide)
      (subnP_chunk_step _ _ mINSERT_head (delim_not_mem hd1 (by decide))
        (subnP_chunk_step _ _ mINSERT_head (by decide)
          (subnP_chunk_step _ _ mINSERT_head (goodName_not_mem ht1 (by decide))
            (subnP_chunk_step _ _ mINSERT_head (delim_not_mem hd1 (by decide))
              (subnP_chunk_step _ _ mINSERT_head (inert_not_mem hs1 (by decide))
                (subnP_match_step _ mINSERT_head hd2
                  (subnP_chunk_step _ _ mINSERT_head (goodName_not_mem ht2 (by decide))
                    (subnP_chunk_step _ _ mINSERT_head (delim_not_mem hd2 (by decide))
                      (subnP_chunk_step _ _ mINSERT_head (inert_not_mem hs2 (by decide))
                        (subnP_chunk_step _ _ mINSERT_head (by decide)
                          (subnP_chunk_step _ _ mINSERT_head (delim_not_mem hd3 (by decide))
                            (subnP_chunk_step _ _ mINSERT_head (by decide)
                              (subnP_chunk_step _ _ mINSERT_head (goodName_not_mem ht3 (by decide))
                                (subnP_chunk_step _ _ mINSERT_head (delim_not_mem hd3 (by decide))
                                  (subnP_self _ _ mINSERT_head
                                    (inert_not_mem hs3 (by decide))))))))))))))))))

theorem passLOCK {d1 d2 d3 : Char} {t1 t2 t3 s0 s1 s2 s3 : List Char}
    (hd1 : isDelim d1 = true) (hd2 : isDelim d2 = true) (hd3 : isDelim d3 = true)
    (ht1 : goodName t1 = true) (ht2 : goodName t2 = true) (ht3 : goodName t3 = true)
    (hs0 : inertText s0 = true) (hs1 : inertText s1 = true)
    (hs2 : inertText s2 = true) (hs3 : inertText s3 = true) :
    subnP mLOCK wpOld wpNew (tpDumpP wpNew wpNew wpOld d1 d2 d3 t1 t2 t3 s0 s1 s2 s3) =
      tpDumpP wpNew wpNew wpOld d1 d2 d3 t1 t2 t3 s0 s1 s2 s3 := by
  unfold tpDumpP
  simp only [splitCRE_atL]
  exact subnP_chunk_step _ _ mLOCK_head (inert_not_mem hs0 (by decide))
    (subnP_chunk_step _ _ mLOCK_head (by decide)
      (subnP_none_step _ (matchPat_none_head3 _ _ mLOCK_head (by decide))
        (subnP_chunk_step _ _ mLOCK_head (by decide)
          (subnP_chunk_step _ _ mLOCK_head (delim_not_mem hd1 (by decide))
            (subnP_chunk_step _ _ mLOCK_head (by decide)
              (subnP_chunk_step _ _ mLOCK_head (goodName_not_mem ht1 (by decide))
                (subnP_chunk_step _ _ mLOCK_head (delim_not_mem hd1 (by decide))
                  (subnP_chunk_step _ _ mLOCK_head (inert_not_mem hs1 (by decide))
                    (subnP_chunk_step _ _ mLOCK_head (by decide)
                      (subnP_chunk_step _ _ mLOCK_head (delim_not_mem hd2 (by decide))
                        (subnP_chunk_step _ _ mLOCK_head (by decide)
                          (subnP_chunk_step _ _ mLOCK_head (goodName_not_mem ht2 (by decide))
                            (subnP_chunk_step _ _ mLOCK_head (delim_not_mem hd2 (by decide))
                              (subnP_chunk_step _ _ mLOCK_head (inert_not_mem hs2 (by decide))
                                (subnP_chunk_step _ _ mLOCK_head (by decide)
                                  (subnP_chunk_step _ _ mLOCK_head (delim_not_mem hd3 (by decide))
                                    (subnP_chunk_step _ _ mLOCK_head (by decide)
                                      (subnP_chunk_step _ _ mLOCK_head (goodName_not_mem ht3 (by decide))
                                        (subnP_chunk_step _ _ mLOCK_head (delim_not_mem hd3 (by decide))
                                          (subnP_self _ _ mLOCK_head
                                            (inert_not_mem hs3 (by decide))))))))))))))))))))))

theorem passUNLOCK {d1 d2 d3 : Char} {t1 t2 t3 s0 s1 s2 s3 : List Char}
    (hd1 : isDelim d1 = true) (hd2 : isDelim d2 = true) (hd3 : isDelim d3 = true)
    (ht1 : goodName t1 = true) (ht2 : goodName t2 = true) (ht3 : goodName t3 = true)
    (hs0 : inertText s0 = true) (hs1 : inertText s1 = true)
    (hs2 : inertText s2 = true) (hs3 : inertText s3 = true) :
    subnP mUNLOCK wpOld wpNew (tpDumpP wpNew wpNew wpOld d1 d2 d3 t1 t2 t3 s0 s1 s2 s3) =
      tpDumpP wpNew wpNew wpOld d1 d2 d3 t1 t2 t3 s0 s1 s2 s3 := by
  unfold tpDumpP
  exact subnP_chunk_step _ _ mUNLOCK_head (inert_not_mem hs0 (by decide))
    (subnP_chunk_step _ _ mUNLOCK_head (by decide)
      (subnP_chunk_step _ _ mUNLOCK_head (delim_not_mem hd1 (by decide))
        (subnP_chunk_step _ _ mUNLOCK_head (by decide)
          (subnP_chunk_step _ _ mUNLOCK_head (goodName_not_mem ht1 (by decide))
            (subnP_chunk_step _ _ mUNLOCK_head (delim_not_mem hd1 (by decide))
              (subnP_chunk_step _ _ mUNLOCK_head (inert_not_mem hs1 (by decide))
                (subnP_chunk_step _ _ mUNLOCK_head (by decide)
                  (subnP_chunk_step _ _ mUNLOCK_head (delim_not_mem hd2 (by decide))
                    (subnP_chunk_step _ _ mUNLOCK_head (by decide)
                      (subnP_chunk_step _ _ mUNLOCK_head (goodName_not_mem ht2 (by decide))
                        (subnP_chunk_step _ _ mUNLOCK_head (delim_not_mem hd2 (by decide))
                          (subnP_chunk_step _ _ mUNLOCK_head (inert_not_mem hs2 (by decide))
                            (subnP_chunk_step _ _ mUNLOCK_head (by decide)
                              (subnP_chunk_step _ _ mUNLOCK_head (delim_not_mem hd3 (by decide))
                                (subnP_chunk_step _ _ mUNLOCK_head (by decide)
                                  (subnP_chunk_step _ _ mUNLOCK_head (goodName_not_mem ht3 (by decide))
                                    (subnP_chunk_step _ _ mUNLOCK_head (delim_not_mem hd3 (by decide))
                                      (subnP_self _ _ mUNLOCK_head
                                        (inert_not_mem hs3 (by decide))))))))))))))))))))

theorem passALTER {d1 d2 d3 : Char} {t1 t2 t3 s0 s1 s2 s3 : List Char}
    (hd1 : isDelim d1 = true) (hd2 : isDelim d2 = true) (hd3 : isDelim d3 = true)
    (ht1 : goodName t1 = true) (ht2 : goodName t2 = true) (ht3 : goodName t3 = true)
    (hs0 : inertText s0 = true) (hs1 : inertText s1 = true)
    (hs2 : inertText s2 = true) (hs3 : inertText s3 = true) :
    subnP mALTER wpOld wpNew (tpDumpP wpNew wpNew wpOld d1 d2 d3 t1 t2 t3 s0 s1 s2 s3) =
      tpDumpP wpNew wpNew wpOld d1 d2 d3 t1 t2 t3 s0 s1 s2 s3 := by
  unfold tpDumpP
  simp only [splitCRE_atA]
  exact subnP_chunk_step _ _ mALTER_head (inert_not_mem hs0 (by decide))
    (subnP_chunk_step _ _ mALTER_head (by decide)
      (subnP_none_step _ (matchPat_none_head3 _ _ mALTER_head (by decide))
        (subnP_chunk_step _ _ mALTER_head (by decide)
          (subnP_none_step _ (matchPat_none_head3 _ _ mALTER_head (by decide))
            (subnP_chunk_step _ _ mALTER_head (by decide)
              (subnP_chunk_step _ _ mALTER_head (delim_not_mem hd1 (by decide))
                (subnP_chunk_step _ _ mALTER_head (by decide)
                  (subnP_chunk_step _ _ mALTER_head (goodName_not_mem ht1 (by decide))
                    (subnP_chunk_step _ _ mALTER_head (delim_not_mem hd1 (by decide))
                      (subnP_chunk_step _ _ mALTER_head (inert_not_mem hs1 (by decide))
                        (subnP_chunk_step _ _ mALTER_head (by decide)
                          (subnP_chunk_step _ _ mALTER_head (delim_not_mem hd2 (by decide))
                            (subnP_chunk_step _ _ mALTER_head (by decide)
                              (subnP_chunk_step _ _ mALTER_head (goodName_not_mem ht2 (by decide))
                                (subnP_chunk_step _ _ mALTER_head (delim_not_mem hd2 (by decide))
                                  (subnP_chunk_step _ _ mALTER_head (inert_not_mem hs2 (by decide))
                                    (subnP_chunk_step _ _ mALTER_head (by decide)
                                      (subnP_chunk_step _ _ mALTER_head (delim_not_mem hd3 (by decide))
                                        (subnP_chunk_step _ _ mALTER_head (by decide)
                                          (subnP_chunk_step _ _ mALTER_head (goodName_not_mem ht3 (by decide))
                                            (subnP_chunk_step _ _ mALTER_head (delim_not_mem hd3 (by decide))
                                              (subnP_self _ _ mALTER_head
                                                (inert_not_mem hs3 (by decide))))))))))))))))))))))))

theorem passREFERENCES {d1 d2 d3 : Char} {t1 t2 t3 s0 s1 s2 s3 : List Char}
    (hd1 : isDelim d1 = true) (hd2 : isDelim d2 = true) (hd3 : isDelim d3 = true)
    (ht1 : goodName t1 = true) (ht2 : goodName t2 = true) (ht3 : goodName t3 = true)
    (hs0 : inertText s0 = true) (hs1 : inertText s1 = true)
    (hs2 : inertText s2 = true) (hs3 : inertText s3 = true) :
    subnP mREFERENCES wpOld wpNew (tpDumpP wpNew wpNew wpOld d1 d2 d3 t1 t2 t3 s0 s1 s2 s3) =
      tpDumpP wpNew wpNew wpNew d1 d2 d3 t1 t2 t3 s0 s1 s2 s3 := by
  unfold tpDumpP
  simp only [splitCRE_atR, splitINS_atR]
  exact subnP_chunk_step _ _ mREFERENCES_head (inert_not_mem hs0 (by decide))
    (subnP_chunk_step _ _ mREFERENCES_head (by decide)
      (subnP_none_step _ (matchPat_none_head3 _ _ mREFERENCES_head (by decide))
        (subnP_chunk_step _ _ mREFERENCES_head (by decide)
          (subnP_chunk_step _ _ mREFERENCES_head (delim_not_mem hd1 (by decide))
            (subnP_chunk_step _ _ mREFERENCES_head (by decide)
              (subnP_chunk_step _ _ mREFERENCES_head (goodName_not_mem ht1 (by decide))
                (subnP_chunk_step _ _ mREFERENCES_head (delim_not_mem hd1 (by decide))
                  (subnP_chunk_step _ _ mREFERENCES_head (inert_not_mem hs1 (by decide))
                    (subnP_chunk_step _ _ mREFERENCES_head (by decide)
                      (subnP_none_step _ (matchPat_none_head3 _ _ mREFERENCES_head (by decide))
                        (subnP_chunk_step _ _ mREFERENCES_head (by decide)
                          (subnP_chunk_step _ _ mREFERENCES_head (delim_not_mem hd2 (by decide))
                            (subnP_chunk_step _ _ mREFERENCES_head (by decide)
                              (subnP_chunk_step _ _ mREFERENCES_head (goodName_not_mem ht2 (by decide))
                                (subnP_chunk_step _ _ mREFERENCES_head (delim_not_mem hd2 (by decide))
                                  (subnP_chunk_step _ _ mREFERENCES_head (inert_not_mem hs2 (by decide))
                                    (subnP_match_step _ mREFERENCES_head hd3
                                      (subnP_chunk_step _ _ mREFERENCES_head (goodName_not_mem ht3 (by decide))
                                        (subnP_chunk_step _ _ mREFERENCES_head (delim_not_mem hd3 (by decide))
                                          (subnP_self _ _ mREFERENCES_head
                                            (inert_not_mem hs3 (by decide))))))))))))))))))))))

/-- C3: for every minimal SQL dump made of one `CREATE TABLE`, one
`INSERT INTO` and one `REFERENCES` clause on `wp_`-tables, each table
name delimited by a backtick or a double quote, with ordinary lowercase
table names and no uppercase ASCII letters in the surrounding dump text,
`replace_table_prefix_in_sql` from `wp_` to `wp2_` rewrites exactly the
three prefix occurrences and changes nothing else: the result is the
same dump with `wp2_` substituted at the three marked spots. -/
theorem replaceTablePfxInSql_spec {d1 d2 d3 : Char} {t1 t2 t3 s0 s1 s2 s3 : List Char}
    (hd1 : isDelim d1 = true) (hd2 : isDelim d2 = true) (hd3 : isDelim d3 = true)
    (ht1 : goodName t1 = true) (ht2 : goodName t2 = true) (ht3 : goodName t3 = true)
    (hs0 : inertText s0 = true) (hs1 : inertText s1 = true)
    (hs2 : inertText s2 = true) (hs3 : inertText s3 = true) :
    replaceTablePfxInSql wpOld wpNew
        (tpDumpP wpOld wpOld wpOld d1 d2 d3 t1 t2 t3 s0 s1 s2 s3) =
      tpDumpP wpNew wpNew wpNew d1 d2 d3 t1 t2 t3 s0 s1 s2 s3 := by
  unfold replaceTablePfxInSql
  rw [if_neg (by decide)]
  simp only [tpMarkers, List.foldl_cons, List.foldl_nil]
  rw [passCREATE hd1 hd2 hd3 ht1 ht2 ht3 hs0 hs1 hs2 hs3,
    passDROP hd1 hd2 hd3 ht1 ht2 ht3 hs0 hs1 hs2 hs3,
    passINSERT hd1 hd2 hd3 ht1 ht2 ht3 hs0 hs1 hs2 hs3,
    passLOCK hd1 hd2 hd3 ht1 ht2 ht3 hs0 hs1 hs2 hs3,
    passUNLOCK hd1 hd2 hd3 ht1 ht2 ht3 hs0 hs1 hs2 hs3,
    passALTER hd1 hd2 hd3 ht1 ht2 ht3 hs0 hs1 hs2 hs3,
    passREFERENCES hd1 hd2 hd3 ht1 ht2 ht3 hs0 hs1 hs2 hs3]

/-- Witness for `replaceTablePfxInSql_spec`: a concrete minimal dump. -/
theorem replaceTablePfxInSql_spec_witness :
    replaceTablePfxInSql wpOld wpNew
        (tpDumpP wpOld wpOld wpOld '`' '`' '"' "posts".toList "options".toList
          "users".toList "".toList " (id int);\n".toList
          " values (1);\nforeign key (a) ".toList " (id);\n".toList) =
      tpDumpP wpNew wpNew wpNew '`' '`' '"' "posts".toList "options".toList
        "users".toList "".toList " (id int);\n".toList
        " values (1);\nforeign key (a) ".toList " (id);\n".toList :=
  replaceTablePfxInSql_spec (by decide) (by decide) (by decide) (by decide) (by decide)
    (by decide) (by decide) (by decide) (by decide) (by decide)

/-! ### src/src/models -/

/-- Dataclass `DatabaseConfig` of src/src/models/database_config.py.
The Python field `local_table_prefix` is embedded as `localTablePfx` and
`remote_table_prefix` as `remoteTablePfx`. -/
structure DatabaseConfig where
  local_db_name : String
  local_db_host : String := "localhost"
  local_db_port : Nat := 3306
  local_db_user : String := "root"
  localTablePfx : String := "wp_"
  remote_db_name : String := ""
  remote_db_host : String := "localhost"
  remote_db_port : Nat := 3306
  remote_db_user : String := ""
  remoteTablePfx : String := "wp_"
  local_url : String := ""
  remote_url : String := ""
  exclude_tables : List String := []
  backup_before_import : Bool := true
  require_confirmation_on_push : Bool := true
  save_database_backups : Bool := true
deriving DecidableEq, Repr

/-- Class method `DatabaseConfig.from_dict` restricted to its data
content: every field is carried over and the two URLs are normalized.
The dictionary is represented by the record itself, to_dict/from_dict
being field-for-field. -/
def DatabaseConfig.from_dict (d : DatabaseConfig) : DatabaseConfig :=
  { d with local_url := normalize_url d.local_url,
           remote_url := normalize_url d.remote_url }

/-- Default `exclude_patterns` of `SiteConfig`. -/
def defaultExcludePatterns : List String :=
  ["*.log", "wp-config.php", "wp-config-local.php", ".git/", "node_modules/",
   ".DS_Store", ".htaccess", "*.sql", "*.sql.gz", ".env", ".env.local"]

/-- Dataclass `SiteConfig` of src/src/models/site_config.py (lines
10-41).  Note: the dataclass declares no `push_newer_only`,
`use_compression` or `compress_folders` field, although other modules
read them. -/
structure SiteConfig where
  id : String
  name : String
  local_path : String
  git_repo_path : String
  remote_host : String
  remote_port : Nat
  remote_path : String
  remote_username : String
  site_url : String := ""
  last_pushed_commit : String := ""
  exclude_patterns : List String := defaultExcludePatterns
  pull_include_paths : List String := []
  database_config : Option DatabaseConfig := none
  last_db_pushed_at : String := ""
  last_db_pulled_at : String := ""
  created_at : String := ""
  updated_at : String := ""
deriving DecidableEq, Repr

/-- Class method `SiteConfig.from_dict`: builds the record, sending the
embedded database dictionary through `DatabaseConfig.from_dict`. -/
def SiteConfig.from_dict (d : SiteConfig) : SiteConfig :=
  { d with database_config := d.database_config.map DatabaseConfig.from_dict }

/-! ### src/src/services/config_service.py

The YAML site list is read wholesale and written wholesale; the store is
embedded as the list of sites, and an operation that raises leaves the
file untouched (the model returns the thrown message through `Except`).
-/

/-- Method `ConfigService.add_site` (lines 64-80; the keyring part is
out of scope).  Raises when the ID already exists, else appends and
saves. -/
def add_site (sites : List SiteConfig) (site : SiteConfig) :
    Except String (List SiteConfig) :=
  if sites.any (fun s => s.id == site.id) then
    Except.error ("Site with ID " ++ site.id ++ " already exists")
  else
    Except.ok (sites ++ [site])

/-- In-place replacement of the first site with the given ID, as the
loop of `update_site` performs it. -/
def replaceFirstById : List SiteConfig → SiteConfig → List SiteConfig
  | [], _ => []
  | s :: rest, site =>
    if s.id == site.id then site :: rest else s :: replaceFirstById rest site

/-- Method `ConfigService.update_site` (lines 82-92): replaces the first
matching entry and saves, or raises when the ID is absent. -/
def update_site (sites : List SiteConfig) (site : SiteConfig) :
    Except String (List SiteConfig) :=
  if sites.any (fun s => s.id == site.id) then
    Except.ok (replaceFirstById sites site)
  else
    Except.error ("Site with ID " ++ site.id ++ " not found")

/-- Method `ConfigService.delete_site` (lines 94-113; keyring cleanup
out of scope): keeps every site with a different ID. -/
def delete_site (sites : List SiteConfig) (site_id : String) : List SiteConfig :=
  sites.filter (fun s => !(s.id == site_id))

/-- Method `ConfigService.get_site` (lines 115-121): first match by ID. -/
def get_site (sites : List SiteConfig) (site_id : String) : Option SiteConfig :=
  sites.find? (fun s => s.id == site_id)

/-- Method `ConfigService.update_last_pushed_commit` (lines 175-180):
reload the site, set the hash, store through `update_site`. -/
def update_last_pushed_commit (sites : List SiteConfig) (site_id commit_hash : String) :
    List SiteConfig :=
  match get_site sites site_id with
  | some site =>
    match update_site sites { site with last_pushed_commit := commit_hash } with
    | Except.ok st => st
    | Except.error _ => sites
  | none => sites

/-- JSON envelope of `export_site_to_json` / `import_site_from_json`
(the `version` and `credentials` entries are not read by the import
logic modelled here; credentials go to the keyring, out of scope). -/
structure ImportData where
  export_type : Option String := none
  site : Option SiteConfig := none
deriving DecidableEq, Repr

/-- Method `ConfigService.import_site_from_json` (lines 246-314).
`fileData` is `none` when the file cannot be read or parsed; `newId` is
the generated `uuid4().hex[:8]` and `nowTs` the current ISO timestamp.
Any raise (in particular a duplicate-ID `ValueError` out of `add_site`)
is caught and turned into `none` with the store untouched. -/
def import_site_from_json (sites : List SiteConfig) (fileData : Option ImportData)
    (newId nowTs : String) : Option SiteConfig × List SiteConfig :=
  match fileData with
  | none => (none, sites)
  | some data =>
    if data.export_type ≠ some "wp-deploy-site" then (none, sites)
    else
      match data.site with
      | none => (none, sites)
      | some sd =>
        let site := SiteConfig.from_dict
          { sd with id := newId, created_at := nowTs, updated_at := nowTs,
                    last_pushed_commit := "", last_db_pushed_at := "",
                    last_db_pulled_at := "" }
        match add_site sites site with
        | Except.ok st => (some site, st)
        | Except.error _ => (none, sites)

/-- The stored IDs. -/
def idsOf (sites : List SiteConfig) : List String := sites.map (fun s => s.id)

theorem idsOf_replaceFirst (sites : List SiteConfig) (site : SiteConfig) :
    idsOf (replaceFirstById sites site) = idsOf sites := by
  induction sites with
  | nil => rfl
  | cons s rest ih =>
    unfold replaceFirstById
    by_cases h : (s.id == site.id) = true
    · rw [if_pos h]
      have : site.id = s.id := (beq_iff_eq.mp h).symm
      simp [idsOf, this]
    · rw [if_neg h]
      simp only [idsOf, List.map_cons]
      rw [show (replaceFirstById rest site).map (fun s => s.id) = idsOf (replaceFirstById rest site) from rfl, ih]
      rfl

theorem add_site_ok_nodup (sites : List SiteConfig) (site : SiteConfig)
    (st : List SiteConfig) (hnd : (idsOf sites).Nodup)
    (hok : add_site sites site = Except.ok st) : (idsOf st).Nodup := by
  unfold add_site at hok
  by_cases hany : (sites.any fun s => s.id == site.id) = true
  · rw [if_pos hany] at hok
    cases hok
  · rw [if_neg hany] at hok
    have hst : st = sites ++ [site] := by cases hok; rfl
    subst hst
    have hnotin : site.id ∉ idsOf sites := by
      intro hmem
      rcases List.mem_map.mp hmem with ⟨s, hs, hid⟩
      exact hany (List.any_eq_true.mpr ⟨s, hs, by simp [hid]⟩)
    have heq : idsOf (sites ++ [site]) = idsOf sites ++ [site.id] := by
      simp [idsOf]
    rw [heq]
    refine List.Nodup.append hnd (List.nodup_singleton _) ?_
    intro a ha hb
    rw [List.mem_singleton] at hb
    subst hb
    exact hnotin ha

theorem update_site_ok_nodup (sites : List SiteConfig) (site : SiteConfig)
    (st : List SiteConfig) (hnd : (idsOf sites).Nodup)
    (hok : update_site sites site = Except.ok st) : (idsOf st).Nodup := by
  unfold update_site at hok
  by_cases hany : (sites.any fun s => s.id == site.id) = true
  · rw [if_pos hany] at hok
    have hst : st = replaceFirstById sites site := by cases hok; rfl
    subst hst
    rw [idsOf_replaceFirst]
    exact hnd
  · rw [if_neg hany] at hok
    cases hok

theorem delete_site_nodup (sites : List SiteConfig) (site_id : String)
    (hnd : (idsOf sites).Nodup) : (idsOf (delete_site sites site_id)).Nodup := by
  refine List.Nodup.sublist ?_ hnd
  exact List.Sublist.map _ (List.filter_sublist sites)

theorem import_preserves_nodup (sites : List SiteConfig) (fileData : Option ImportData)
    (newId nowTs : String) (hnd : (idsOf sites).Nodup) :
    (idsOf (import_site_from_json sites fileData newId nowTs).2).Nodup := by
  unfold import_site_from_json
  split
  · exact hnd
  · split
    · exact hnd
    · split
      · exact hnd
      · dsimp only
        split
        next st hadd => exact add_site_ok_nodup _ _ _ hnd hadd
        next => exact hnd

/-- C9: stored site IDs stay unique under every configuration operation:
a successful `add_site` preserves uniqueness and a duplicate ID makes
`add_site` raise; a successful `update_site` replaces in place without
duplicating an ID; `delete_site` only removes entries; and
`import_site_from_json` (which adds under a freshly generated ID, going
through `add_site`) preserves uniqueness as well. -/
theorem site_ids_unique_invariant :
    (∀ (sites : List SiteConfig) (site : SiteConfig) (st : List SiteConfig),
        (idsOf sites).Nodup → add_site sites site = Except.ok st → (idsOf st).Nodup) ∧
    (∀ (sites : List SiteConfig) (site : SiteConfig),
        (∃ s ∈ sites, s.id = site.id) → ∃ e, add_site sites site = Except.error e) ∧
    (∀ (sites : List SiteConfig) (site : SiteConfig) (st : List SiteConfig),
        (idsOf sites).Nodup → update_site sites site = Except.ok st → (idsOf st).Nodup) ∧
    (∀ (sites : List SiteConfig) (site_id : String),
        (idsOf sites).Nodup → (idsOf (delete_site sites site_id)).Nodup) ∧
    (∀ (sites : List SiteConfig) (fileData : Option ImportData) (newId nowTs : String),
        (idsOf sites).Nodup →
        (idsOf (import_site_from_json sites fileData newId nowTs).2).Nodup) := by
  refine ⟨add_site_ok_nodup, ?_, update_site_ok_nodup, delete_site_nodup, import_preserves_nodup⟩
  intro sites site hdup
  rcases hdup with ⟨s, hs, hid⟩
  refine ⟨"Site with ID " ++ site.id ++ " already exists", ?_⟩
  unfold add_site
  rw [if_pos (List.any_eq_true.mpr ⟨s, hs, by simp [hid]⟩)]

/-- Sample site record used by concrete witnesses. -/
def sampleSite : SiteConfig :=
  { id := "abc12345", name := "Blog", local_path := "/srv/site",
    git_repo_path := "/srv/site", remote_host := "example.org",
    remote_port := 22, remote_path := "/var/www", remote_username := "deploy" }

/-- Witness for `site_ids_unique_invariant`: a successful add keeps the
IDs unique, and adding the same ID again errors. -/
theorem site_ids_unique_invariant_witness :
    (idsOf [sampleSite, { sampleSite with id := "def67890" }]).Nodup ∧
    (∃ e, add_site [sampleSite] sampleSite = Except.error e) :=
  ⟨site_ids_unique_invariant.1 [sampleSite] { sampleSite with id := "def67890" }
      [sampleSite, { sampleSite with id := "def67890" }] (by decide) rfl,
   site_ids_unique_invariant.2.1 [sampleSite] sampleSite
      ⟨sampleSite, List.mem_singleton.mpr rfl, rfl⟩⟩

/-- Envelope site record with sync-tracking history, used to examine
the import behaviour. -/
def sampleImportSite : SiteConfig :=
  { sampleSite with
    id := "orig0000"
    last_pushed_commit := "deadbeef"
    last_db_pushed_at := "2021-05-01T00:00:00"
    last_db_pulled_at := "2021-06-01T00:00:00"
    created_at := "2020-01-01T00:00:00"
    updated_at := "2020-01-02T00:00:00" }

/-- Counterexample to C10 as stated.  First conjunct: importing a valid
envelope does not carry the envelope's `created_at` over — the import
resets it to the current time, so the claim that all fields other than
the three sync-tracking ones are taken from the envelope is false.
Second conjunct: a valid envelope whose freshly generated ID collides
with a stored site makes `add_site` raise, so the import returns `None`
instead of a site. -/
theorem import_site_counterexample :
    ((import_site_from_json []
        (some { export_type := some "wp-deploy-site", site := some sampleImportSite })
        "newid123" "2026-10-12T09:00:00").1.map (fun s => s.created_at) =
      some "2026-10-12T09:00:00" ∧
     sampleImportSite.created_at = "2020-01-01T00:00:00") ∧
    (import_site_from_json [{ sampleSite with id := "newid123" }]
        (some { export_type := some "wp-deploy-site", site := some sampleImportSite })
        "newid123" "2026-10-12T09:00:00").1 = none := by
  decide

/-- C10, amended: for every valid envelope (`export_type` equal to
`wp-deploy-site` with a site record), and provided the freshly generated
ID does not collide with a stored one, the import returns a site whose
ID is the generated one, whose sync-tracking fields
`last_pushed_commit`, `last_db_pushed_at`, `last_db_pulled_at` are reset
to the empty string, whose `created_at` and `updated_at` are reset to
the import time, and whose remaining fields are taken from the envelope
(the embedded database configuration passing through
`DatabaseConfig.from_dict` URL normalization, as every load does); for
any other `export_type` or a missing site record it returns `None` and
adds no site. -/
theorem import_site_spec :
    (∀ (sites : List SiteConfig) (data : ImportData) (sd : SiteConfig) (newId nowTs : String),
        data.export_type = some "wp-deploy-site" →
        data.site = some sd →
        (∀ s ∈ sites, s.id ≠ newId) →
        ∃ site,
          WpSync.import_site_from_json sites (some data) newId nowTs =
            (some site, sites ++ [site]) ∧
          site.id = newId ∧ site.last_pushed_commit = "" ∧
          site.last_db_pushed_at = "" ∧ site.last_db_pulled_at = "" ∧
          site.created_at = nowTs ∧ site.updated_at = nowTs ∧
          site.name = sd.name ∧ site.local_path = sd.local_path ∧
          site.git_repo_path = sd.git_repo_path ∧ site.remote_host = sd.remote_host ∧
          site.remote_port = sd.remote_port ∧ site.remote_path = sd.remote_path ∧
          site.remote_username = sd.remote_username ∧ site.site_url = sd.site_url ∧
          site.exclude_patterns = sd.exclude_patterns ∧
          site.pull_include_paths = sd.pull_include_paths ∧
          site.database_config = sd.database_config.map DatabaseConfig.from_dict) ∧
    (∀ (sites : List SiteConfig) (data : ImportData) (newId nowTs : String),
        data.export_type ≠ some "wp-deploy-site" →
        WpSync.import_site_from_json sites (some data) newId nowTs = (none, sites)) ∧
    (∀ (sites : List SiteConfig) (data : ImportData) (newId nowTs : String),
        data.site = none →
        WpSync.import_site_from_json sites (some data) newId nowTs = (none, sites)) := by
  refine ⟨?_, ?_, ?_⟩
  · intro sites data sd newId nowTs hexp hsite hfresh
    obtain ⟨dexp, dsite⟩ := data
    have hexp' : dexp = some "wp-deploy-site" := hexp
    have hsite' : dsite = some sd := hsite
    subst hexp' hsite'
    refine ⟨SiteConfig.from_dict
        { sd with id := newId, created_at := nowTs, updated_at := nowTs,
                  last_pushed_commit := "", last_db_pushed_at := "",
                  last_db_pulled_at := "" },
      ?_, rfl, rfl, rfl, rfl, rfl, rfl, rfl, rfl, rfl, rfl, rfl, rfl,
      rfl, rfl, rfl, rfl, rfl⟩
    have haddeq : add_site sites (SiteConfig.from_dict
        { sd with id := newId, created_at := nowTs, updated_at := nowTs,
                  last_pushed_commit := "", last_db_pushed_at := "",
                  last_db_pulled_at := "" }) =
        Except.ok (sites ++ [SiteConfig.from_dict
          { sd with id := newId, created_at := nowTs, updated_at := nowTs,
                    last_pushed_commit := "", last_db_pushed_at := "",
                    last_db_pulled_at := "" }]) := by
      unfold add_site
      have hany : (sites.any fun s =>
          s.id == (SiteConfig.from_dict
            { sd with id := newId, created_at := nowTs, updated_at := nowTs,
                      last_pushed_commit := "", last_db_pushed_at := "",
                      last_db_pulled_at := "" }).id) = false := by
        by_cases hb : (sites.any fun s =>
            s.id == (SiteConfig.from_dict
              { sd with id := newId, created_at := nowTs, updated_at := nowTs,
                        last_pushed_commit := "", last_db_pushed_at := "",
                        last_db_pulled_at := "" }).id) = true
        · exfalso
          rcases List.any_eq_true.mp hb with ⟨s, hs, hbeq⟩
          exact hfresh s hs (beq_iff_eq.mp hbeq)
        · exact Bool.eq_false_iff.mpr hb
      rw [hany]
      rfl
    unfold import_site_from_json
    try dsimp only
    rw [if_neg (fun h => h rfl)]
    try dsimp only
    rw [haddeq]
    try dsimp only
  · intro sites data newId nowTs hexp
    unfold import_site_from_json
    try dsimp only
    split
    · rfl
    · next h => exact absurd hexp h
  · intro sites data newId nowTs hsite
    unfold import_site_from_json
    try dsimp only
    split
    · rfl
    · rw [hsite]

/-- Witness for `import_site_spec`: the main import path at a concrete
envelope and fresh ID. -/
theorem import_site_spec_witness :
    ∃ site,
      WpSync.import_site_from_json []
          (some { export_type := some "wp-deploy-site", site := some sampleImportSite })
          "newid123" "2026-10-12T09:00:00" = (some site, [] ++ [site]) ∧
      site.id = "newid123" ∧ site.last_pushed_commit = "" ∧
      site.last_db_pushed_at = "" ∧ site.last_db_pulled_at = "" ∧
      site.created_at = "2026-10-12T09:00:00" ∧ site.updated_at = "2026-10-12T09:00:00" ∧
      site.name = sampleImportSite.name ∧ site.local_path = sampleImportSite.local_path ∧
      site.git_repo_path = sampleImportSite.git_repo_path ∧
      site.remote_host = sampleImportSite.remote_host ∧
      site.remote_port = sampleImportSite.remote_port ∧
      site.remote_path = sampleImportSite.remote_path ∧
      site.remote_username = sampleImportSite.remote_username ∧
      site.site_url = sampleImportSite.site_url ∧
      site.exclude_patterns = sampleImportSite.exclude_patterns ∧
      site.pull_include_paths = sampleImportSite.pull_include_paths ∧
      site.database_config = sampleImportSite.database_config.map DatabaseConfig.from_dict :=
  WpSync.import_site_spec.1 []
    { export_type := some "wp-deploy-site", site := some sampleImportSite }
    sampleImportSite "newid123" "2026-10-12T09:00:00" rfl rfl (by decide)

/-! ### src/src/controllers/push_controller.py and pull_controller.py

The controllers are sequencing code around external collaborators.  The
collaborators' answers (git, SFTP, the local file system) are embedded
as environment records of total functions; a failing connect is a flag.
-/

/-- Python exceptions the controllers meet. -/
inductive PyErr
  | attributeError
  | connectionError
deriving DecidableEq, Repr

/-- Python attribute lookup `site.push_newer_only`: the `SiteConfig`
dataclass declares no such field (src/src/models/site_config.py lines
10-41), so the lookup raises `AttributeError`. -/
def SiteConfig.getattrPushNewerOnly (_ : SiteConfig) : Except PyErr Bool :=
  Except.error PyErr.attributeError

/-- Python `os.path.join` for two POSIX path pieces (spelled over the
character lists so that concrete instances evaluate in the kernel). -/
def ospJoin (a b : String) : String :=
  if ['/'].isPrefixOf b.toList then b
  else if a = "" then b
  else if ['/'].isSuffixOf a.toList then a ++ b
  else a ++ "/" ++ b

/-- Python `os.path.join(...).replace('\\', '/')` used for remote paths. -/
def joinRemote (a b : String) : String := String.mk (normalizeSep (ospJoin a b).toList)

/-- Python `s.strip()` on a `String`. -/
def stripS (s : String) : String := String.mk (stripWs s.toList)

/-- Answers of git, the file system and SFTP during a push. -/
structure PushEnv where
  password : Option String
  connectOk : Bool
  head : String
  commitMsg : String
  changedSince : String → List String
  allTracked : List String
  localExists : String → Bool
  isLocalNewer : String → Bool
  uploadOk : String → Bool
  fileSize : String → Nat

/-- Observable store effects of a push. -/
inductive PushEv
  | upload (file : String) (ok : Bool)
  | setLastPushedCommit (commit : String)
deriving DecidableEq, Repr

/-- Lines 152-161 of push_controller.py: the changed files since the
last pushed commit (or all tracked files when none), filtered by the
exclude patterns. -/
def pushFilesToPush (env : PushEnv) (site : SiteConfig) : List String :=
  filter_files
    (if site.last_pushed_commit ≠ "" then env.changedSince site.last_pushed_commit
     else env.allTracked)
    site.exclude_patterns

/-- Upload loop of `PushController.push` (lines 176-205).  A file absent
locally is skipped; otherwise the loop reads `site.push_newer_only`,
which raises, aborting the whole loop; the remaining source lines (the
`is_local_newer` skip and the upload) sit behind that read. -/
def pushLoop (env : PushEnv) (site : SiteConfig) : List String → List PushEv × Option PyErr
  | [] => ([], none)
  | f :: fs =>
    if env.localExists (ospJoin site.local_path f) = false then pushLoop env site fs
    else
      match SiteConfig.getattrPushNewerOnly site with
      | Except.error e => ([], some e)
      | Except.ok b =>
        if b && !(env.isLocalNewer (ospJoin site.local_path f)) then pushLoop env site fs
        else
          let (evs, exc) := pushLoop env site fs
          (PushEv.upload f (env.uploadOk f) :: evs, exc)

/-- Outcome of `PushController.push`: the returned success flag, the
observable effects, and the stored site list after the call. -/
structure PushResult where
  ok : Bool
  events : List PushEv
  sites : List SiteConfig
deriving Repr

/-- Method `PushController.push` (push_controller.py lines 116-238).
Missing site or password fail early; inside the `try`, the HEAD commit
is read once, the file list is computed and filtered, an empty list
returns success untouched, a failed connect or a raise inside the loop
is absorbed by the catch-all into a failure tuple, and only after the
loop does `update_last_pushed_commit` store the HEAD read at the start. -/
def pushRun (sites : List SiteConfig) (site_id : String) (env : PushEnv) : PushResult :=
  match get_site sites site_id with
  | none => ⟨false, [], sites⟩
  | some site =>
    match env.password with
    | none => ⟨false, [], sites⟩
    | some _ =>
      let files := pushFilesToPush env site
      if files = [] then ⟨true, [], sites⟩
      else if env.connectOk = false then ⟨false, [], sites⟩
      else
        match pushLoop env site files with
        | (evs, some _) => ⟨false, evs, sites⟩
        | (evs, none) =>
          ⟨true, evs ++ [PushEv.setLastPushedCommit env.head],
            update_last_pushed_commit sites site_id env.head⟩

theorem find?_replaceFirst (sites : List SiteConfig) (site_id : String)
    (site new : SiteConfig)
    (h : sites.find? (fun s => s.id == site_id) = some site)
    (hnewid : new.id = site.id) :
    (replaceFirstById sites new).find? (fun s => s.id == site_id) = some new := by
  induction sites with
  | nil => cases h
  | cons s rest ih =>
    by_cases hs : (s.id == site_id) = true
    · rw [@List.find?_cons_of_pos SiteConfig (fun x => x.id == site_id) s rest hs] at h
      have hss : s = site := by cases h; rfl
      subst hss
      unfold replaceFirstById
      rw [if_pos (by simp [hnewid])]
      exact @List.find?_cons_of_pos SiteConfig (fun x => x.id == site_id) new
        rest (by show (new.id == site_id) = true; rw [hnewid]; exact hs)
    · rw [@List.find?_cons_of_neg SiteConfig (fun x => x.id == site_id) s rest hs] at h
      unfold replaceFirstById
      have hsid := List.find?_some h
      have hsid' : (site.id == site_id) = true := hsid
      have h1 : site.id = site_id := by simpa using hsid'
      have hrep : (s.id == new.id) = false := by
        rw [hnewid, h1]
        simpa using hs
      rw [if_neg (by simp [hrep] )]
      rw [@List.find?_cons_of_neg SiteConfig (fun x => x.id == site_id) s (replaceFirstById rest new) hs]
      exact ih h

theorem get_site_update_last (sites : List SiteConfig) (site_id c : String)
    (site : SiteConfig) (h : get_site sites site_id = some site) :
    get_site (update_last_pushed_commit sites site_id c) site_id =
      some { site with last_pushed_commit := c } := by
  have h0 : sites.find? (fun s => s.id == site_id) = some site := h
  have hid0 := List.find?_some h0
  have hid : (site.id == site_id) = true := hid0
  have hmem : site ∈ sites := List.mem_of_find?_eq_some h0
  unfold update_last_pushed_commit
  rw [h]
  dsimp only
  unfold update_site
  have hany : (sites.any fun s =>
      s.id == SiteConfig.id { site with last_pushed_commit := c }) = true :=
    List.any_eq_true.mpr ⟨site, hmem, by simpa using hid⟩
  rw [if_pos hany]
  dsimp only
  unfold get_site
  exact find?_replaceFirst sites site_id site _ h0 rfl

theorem pushLoop_events_upload (env : PushEnv) (site : SiteConfig) :
    ∀ fs, ∀ e ∈ (pushLoop env site fs).1, ∃ f ok, e = PushEv.upload f ok := by
  intro fs
  induction fs with
  | nil =>
    intro e he
    rw [pushLoop] at he
    cases he
  | cons f fs ih =>
    intro e he
    rw [pushLoop] at he
    by_cases hex : env.localExists (ospJoin site.local_path f) = false
    · rw [if_pos hex] at he
      exact ih e he
    · rw [if_neg hex] at he
      cases he

/-- Environment of the counterexample run: HEAD moved from `aaa` to
`bbb` but every file changed in between is excluded or absent, so the
filtered list is empty. -/
def cexPushEnv : PushEnv :=
  { password := some "pw", connectOk := true, head := "bbb", commitMsg := "",
    changedSince := fun _ => [], allTracked := [], localExists := fun _ => false,
    isLocalNewer := fun _ => true, uploadOk := fun _ => true, fileSize := fun _ => 0 }

/-- Counterexample to C1 as stated: a push whose filtered file list is
empty returns success through the early `No files to push` return
(push_controller.py line 165) without ever calling
`update_last_pushed_commit`, so after this successful push the stored
commit is still `aaa` while HEAD at push start was `bbb`, and the
stored value was written zero times, not once. -/
theorem push_commit_counterexample :
    (pushRun [{ sampleSite with last_pushed_commit := "aaa" }] "abc12345" cexPushEnv).ok = true ∧
    (get_site (pushRun [{ sampleSite with last_pushed_commit := "aaa" }] "abc12345"
        cexPushEnv).sites "abc12345").map (fun s => s.last_pushed_commit) = some "aaa" ∧
    cexPushEnv.head = "bbb" ∧
    (pushRun [{ sampleSite with last_pushed_commit := "aaa" }] "abc12345" cexPushEnv).events = [] := by
  decide

/-- C1, amended: for every push that completes successfully with a
non-empty filtered file list, the stored `last_pushed_commit` equals the
commit that was HEAD when the push started (read once, before any
upload), and it is written exactly once, after the upload loop over the
whole batch, never per-file. -/
theorem push_commit_bookkeeping {sites : List SiteConfig} {site_id : String}
    {env : PushEnv} {site : SiteConfig}
    (hsite : get_site sites site_id = some site)
    (hfiles : pushFilesToPush env site ≠ [])
    (hok : (pushRun sites site_id env).ok = true) :
    (get_site (pushRun sites site_id env).sites site_id).map
        (fun s => s.last_pushed_commit) = some env.head ∧
    ∃ evs, (pushRun sites site_id env).events =
        evs ++ [PushEv.setLastPushedCommit env.head] ∧
      ∀ e ∈ evs, ∃ f ok, e = PushEv.upload f ok := by
  unfold pushRun at hok ⊢
  rw [hsite] at hok ⊢
  dsimp only at hok ⊢
  match hpw : env.password with
  | none =>
    rw [hpw] at hok
    exact Bool.noConfusion hok
  | some pw =>
    rw [hpw] at hok
    dsimp only at hok ⊢
    rw [if_neg hfiles] at hok ⊢
    by_cases hc : env.connectOk = false
    · rw [if_pos hc] at hok
      cases hok
    · rw [if_neg hc] at hok ⊢
      match hl : pushLoop env site (pushFilesToPush env site) with
      | (evs, some e) =>
        rw [hl] at hok
        exact Bool.noConfusion hok
      | (evs, none) =>
        rw [hl] at hok
        dsimp only at hok ⊢
        refine ⟨?_, evs, rfl, ?_⟩
        · rw [get_site_update_last sites site_id env.head site hsite]
          rfl
        · intro e he
          have := pushLoop_events_upload env site (pushFilesToPush env site) e
          rw [hl] at this
          exact this he

/-- Environment of the witness run: first push (no recorded commit), one
tracked file that is absent locally, so the loop skips it and the push
succeeds and records HEAD. -/
def wPushEnv : PushEnv :=
  { password := some "pw", connectOk := true, head := "bbb", commitMsg := "m",
    changedSince := fun _ => [], allTracked := ["readme.php"],
    localExists := fun _ => false, isLocalNewer := fun _ => true,
    uploadOk := fun _ => true, fileSize := fun _ => 0 }

/-- Witness for `push_commit_bookkeeping`. -/
theorem push_commit_bookkeeping_witness :
    (get_site (pushRun [sampleSite] "abc12345" wPushEnv).sites "abc12345").map
        (fun s => s.last_pushed_commit) = some wPushEnv.head ∧
    ∃ evs, (pushRun [sampleSite] "abc12345" wPushEnv).events =
        evs ++ [PushEv.setLastPushedCommit wPushEnv.head] ∧
      ∀ e ∈ evs, ∃ f ok, e = PushEv.upload f ok :=
  @push_commit_bookkeeping [sampleSite] "abc12345" wPushEnv sampleSite
    (by decide) (by decide) (by decide)

/-- Answers of SFTP and the local file system during a pull. -/
structure PullEnv where
  password : Option String
  connectOk : Bool
  pathExists : String → Bool
  remoteTree : String → List (String × Int)
  localExists : String → Bool
  localMtime : String → Int
  remoteMtime : String → Int
  downloadOk : String → Bool

/-- Method `SFTPService.list_files_recursive` (sftp_service.py lines
193-232): the files under a remote path whose modification time lies in
the date window. -/
def list_files_recursive (env : PullEnv) (p : String) (startD endD : Int) :
    List (String × Int) :=
  (env.remoteTree p).filter (fun fm => decide (startD ≤ fm.2) && decide (fm.2 ≤ endD))

/-- Method `SFTPService.is_remote_newer` (sftp_service.py lines
288-319): false when the remote file is absent (mtime 0), true when the
local file is absent, else a strict mtime comparison. -/
def is_remote_newer (env : PullEnv) (remote loc : String) : Bool :=
  if env.remoteMtime remote == 0 then false
  else if env.localExists loc = false then true
  else decide (env.remoteMtime remote > env.localMtime loc)

/-- Python `s.lstrip('/')`. -/
def lstripSlashS (s : String) : String :=
  String.mk (s.toList.dropWhile (fun c => c == '/'))

/-- Lines 115-116 of pull_controller.py: the path of a listed remote
file relative to the site's remote path, and the local target path. -/
def localFileFor (site : SiteConfig) (rf : String) : String :=
  ospJoin site.local_path (lstripSlashS (rf.replace site.remote_path ""))

/-- Observable local write of a pull. -/
inductive PullEv
  | download (remote : String) (ok : Bool)
deriving DecidableEq, Repr

/-- Download loop of `PullController.pull` (lines 104-135).  The first
iteration reads `site.push_newer_only`, which raises and aborts the
loop; the newer-only skip and the download sit behind that read. -/
def pullLoop (env : PullEnv) (site : SiteConfig) :
    List (String × Int) → List PullEv × Option PyErr
  | [] => ([], none)
  | (rf, _) :: rest =>
    match SiteConfig.getattrPushNewerOnly site with
    | Except.error e => ([], some e)
    | Except.ok b =>
      if b && !(is_remote_newer env rf (localFileFor site rf)) then
        pullLoop env site rest
      else
        let (evs, exc) := pullLoop env site rest
        (PullEv.download rf (env.downloadOk rf) :: evs, exc)

/-- Lines 53-58 of pull_controller.py: the caller's include paths, or
the site's stored ones. -/
def resolveIncludePaths (site : SiteConfig) (arg : Option (List String)) : List String :=
  match arg with
  | none => site.pull_include_paths
  | some ps => ps

/-- Lines 72-88: every include path is trimmed, skipped when empty or
absent remotely, else its recursive date-filtered listing is appended. -/
def collectRemoteFiles (env : PullEnv) (site : SiteConfig)
    (include_paths : List String) (startD endD : Int) : List (String × Int) :=
  include_paths.foldl (fun acc ip0 =>
    let ip := stripS ip0
    if ip = "" then acc
    else
      let rp := joinRemote site.remote_path ip
      if env.pathExists rp = false then acc
      else acc ++ list_files_recursive env rp startD endD) []

/-- Lines 95-100: exclude-pattern filtering of the collected listing,
keeping the (path, date) pairs whose path survived. -/
def pullFilesOf (site : SiteConfig) (all_files : List (String × Int)) :
    List (String × Int) :=
  let filtered := filter_files (all_files.map (fun fm => fm.1)) site.exclude_patterns
  all_files.filter (fun fm => filtered.contains fm.1)

/-- Outcome of `PullController.pull`: the success flag and the download
events performed. -/
structure PullResult where
  ok : Bool
  events : List PullEv
deriving DecidableEq, Repr

/-- Method `PullController.pull` (pull_controller.py lines 25-165). -/
def pullRun (sites : List SiteConfig) (site_id : String) (startD endD : Int)
    (include_paths_arg : Option (List String)) (env : PullEnv) : PullResult :=
  match get_site sites site_id with
  | none => ⟨false, []⟩
  | some site =>
    match env.password with
    | none => ⟨false, []⟩
    | some _ =>
      let include_paths := resolveIncludePaths site include_paths_arg
      if include_paths = [] then ⟨false, []⟩
      else if env.connectOk = false then ⟨false, []⟩
      else
        let all_files := collectRemoteFiles env site include_paths startD endD
        if all_files = [] then ⟨true, []⟩
        else
          match pullLoop env site (pullFilesOf site all_files) with
          | (evs, some _) => ⟨false, evs⟩
          | (evs, none) => ⟨true, evs⟩

theorem pullLoop_events_nil (env : PullEnv) (site : SiteConfig) :
    ∀ fs, (pullLoop env site fs).1 = [] := by
  intro fs
  match fs with
  | [] => rfl
  | (rf, m) :: rest => rfl

/-- C7 evidence: with the current code no pull ever performs a file
download.  The first loop iteration reads the missing attribute
`site.push_newer_only` and the raised `AttributeError` aborts the
operation, so a second identical run indeed downloads zero files — but
only because the first one already downloaded zero files and failed,
not because `is_remote_newer` skipped anything. -/
theorem pull_by_date_downloads_nothing :
    ∀ (sites : List SiteConfig) (site_id : String) (startD endD : Int)
      (ipsArg : Option (List String)) (env : PullEnv),
      (pullRun sites site_id startD endD ipsArg env).events = [] := by
  intro sites site_id startD endD ipsArg env
  unfold pullRun
  match get_site sites site_id with
  | none => rfl
  | some site =>
    match env.password with
    | none => rfl
    | some pw =>
      dsimp only
      by_cases h1 : resolveIncludePaths site ipsArg = []
      · rw [if_pos h1]
      · rw [if_neg h1]
        by_cases h2 : env.connectOk = false
        · rw [if_pos h2]
        · rw [if_neg h2]
          by_cases h3 : collectRemoteFiles env site (resolveIncludePaths site ipsArg)
              startD endD = []
          · rw [if_pos h3]
          · rw [if_neg h3]
            match hpl : pullLoop env site (pullFilesOf site
                (collectRemoteFiles env site (resolveIncludePaths site ipsArg)
                  startD endD)) with
            | (evs, exc) =>
              have hevs : evs = [] := by
                have h := pullLoop_events_nil env site (pullFilesOf site
                  (collectRemoteFiles env site (resolveIncludePaths site ipsArg)
                    startD endD))
                rw [hpl] at h
                exact h
              cases exc with
              | none => exact hevs
              | some e => exact hevs

/-- C2: `SiteConfig` has no `push_newer_only` field, so as soon as the
per-file skip check is reached — in push when the first filtered file
exists locally, in pull on the first filtered file — the attribute read
raises `AttributeError`, the catch-all turns it into a failure tuple,
and not a single upload or download finishes (push also leaves the
stored site list untouched). -/
theorem push_newer_only_attribute_error :
    (∀ (sites : List SiteConfig) (site_id : String) (env : PushEnv)
        (site : SiteConfig) (f : String) (fs : List String),
        get_site sites site_id = some site →
        env.password ≠ none →
        env.connectOk = true →
        pushFilesToPush env site = f :: fs →
        env.localExists (ospJoin site.local_path f) = true →
        (pushRun sites site_id env).ok = false ∧
        (pushRun sites site_id env).events = [] ∧
        (pushRun sites site_id env).sites = sites) ∧
    (∀ (sites : List SiteConfig) (site_id : String) (startD endD : Int)
        (ipsArg : Option (List String)) (env : PullEnv) (site : SiteConfig)
        (fm : String × Int) (rest : List (String × Int)),
        get_site sites site_id = some site →
        env.password ≠ none →
        env.connectOk = true →
        resolveIncludePaths site ipsArg ≠ [] →
        pullFilesOf site (collectRemoteFiles env site
          (resolveIncludePaths site ipsArg) startD endD) = fm :: rest →
        env.localExists (localFileFor site fm.1) = true →
        (pullRun sites site_id startD endD ipsArg env).ok = false ∧
        (pullRun sites site_id startD endD ipsArg env).events = []) := by
  constructor
  · intro sites site_id env site f fs hsite hpw hc hfl hex
    have hloop : pushLoop env site (f :: fs) = ([], some PyErr.attributeError) := by
      rw [pushLoop]
      rw [if_neg (by intro h; rw [hex] at h; cases h)]
      rfl
    unfold pushRun
    rw [hsite]
    match hpw2 : env.password with
    | none => exact absurd hpw2 hpw
    | some pw =>
      dsimp only
      rw [hfl, if_neg (List.cons_ne_nil f fs), if_neg (by simp [hc]), hloop]
      exact ⟨rfl, rfl, rfl⟩
  · intro sites site_id startD endD ipsArg env site fm rest hsite hpw hc hips hpf hex
    obtain ⟨rf, m⟩ := fm
    unfold pullRun
    rw [hsite]
    match hpw2 : env.password with
    | none => exact absurd hpw2 hpw
    | some pw =>
      dsimp only
      rw [if_neg hips, if_neg (by simp [hc])]
      have haf : collectRemoteFiles env site (resolveIncludePaths site ipsArg)
          startD endD ≠ [] := by
        intro h0
        rw [h0] at hpf
        exact List.noConfusion hpf
      rw [if_neg haf, hpf]
      have hl : pullLoop env site ((rf, m) :: rest) =
          ([], some PyErr.attributeError) := rfl
      rw [hl]
      exact ⟨rfl, rfl⟩

/-- Push environment for the C2 witness: one changed file, present
locally. -/
def wPushEnv2 : PushEnv :=
  { password := some "pw", connectOk := true, head := "ccc", commitMsg := "m",
    changedSince := fun _ => [], allTracked := ["index.php"],
    localExists := fun _ => true, isLocalNewer := fun _ => true,
    uploadOk := fun _ => true, fileSize := fun _ => 0 }

/-- Pull environment for the C2 witness: one remote file inside the
date window. -/
def wPullEnv : PullEnv :=
  { password := some "pw", connectOk := true,
    pathExists := fun p => p == "/var/www/wp-content",
    remoteTree := fun p =>
      if p == "/var/www/wp-content" then [("/var/www/wp-content/a.php", 100)] else [],
    localExists := fun _ => true, localMtime := fun _ => 50,
    remoteMtime := fun _ => 100, downloadOk := fun _ => true }

/-- Site with one pull include path, for the C2 witness. -/
def wPullSite : SiteConfig := { sampleSite with pull_include_paths := ["wp-content"] }

/-- Witness for `push_newer_only_attribute_error`. -/
theorem push_newer_only_attribute_error_witness :
    ((pushRun [sampleSite] "abc12345" wPushEnv2).ok = false ∧
     (pushRun [sampleSite] "abc12345" wPushEnv2).events = [] ∧
     (pushRun [sampleSite] "abc12345" wPushEnv2).sites = [sampleSite]) ∧
    ((pullRun [wPullSite] "abc12345" 0 200 none wPullEnv).ok = false ∧
     (pullRun [wPullSite] "abc12345" 0 200 none wPullEnv).events = []) :=
  ⟨push_newer_only_attribute_error.1 [sampleSite] "abc12345" wPushEnv2 sampleSite
      "index.php" [] (by decide) (by decide) (by decide) (by decide) (by decide),
   push_newer_only_attribute_error.2 [wPullSite] "abc12345" 0 200 none wPullEnv
      wPullSite ("/var/www/wp-content/a.php", 100) [] (by decide) (by decide)
      (by decide) (by decide) (by decide) (by decide)⟩

/-! ### src/src/services/database_service.py, backup before import

The local file system is an association list from paths to contents
(later writes shadow earlier ones).  `wp db export` writes the dump file
on success and nothing on failure; `wp db import` reads the dump and
writes only the database, never a file. -/

/-- Answers of WP-CLI during a local import. -/
structure DbEnv where
  exportLocalOk : Bool
  exportDump : String
  dbImportOk : Bool

/-- Method `DatabaseService.export_local_database` (lines 280-341),
restricted to its file effect: on success the dump is written at
`output_path`. -/
def export_local_database (env : DbEnv) (fs : List (String × String))
    (output_path : String) : Bool × List (String × String) :=
  if env.exportLocalOk then (true, (output_path, env.exportDump) :: fs)
  else (false, fs)

/-- Method `DatabaseService.import_local_database` (lines 343-385).
With `backup_first` the pre-import backup is exported to the temp
directory; a failed backup aborts; then `wp db import sql_file` runs —
it writes to the database only, so the file system after the import
attempt is exactly the file system after the backup step. -/
def import_local_database (env : DbEnv) (fs : List (String × String))
    (sql_file : String) (backup_first : Bool) (ts : String) :
    Bool × List (String × String) :=
  if backup_first then
    let backup_path := ospJoin "/tmp" ("local-backup-" ++ ts ++ ".sql")
    match export_local_database env fs backup_path with
    | (false, fs') => (false, fs')
    | (true, fs') => if env.dbImportOk then (true, fs') else (false, fs')
  else
    if env.dbImportOk then (true, fs) else (false, fs)

/-- C6: with backup-before-import enabled, when the pre-import backup
export succeeds and the import then fails, the call returns a failure
tuple, the file system is exactly the input plus the backup file — so
the import step wrote and deleted nothing — and the backup file holds
the exported dump unchanged. -/
theorem backup_survives_failed_import :
    ∀ (env : DbEnv) (fs : List (String × String)) (sql_file ts : String),
      env.exportLocalOk = true →
      env.dbImportOk = false →
      (import_local_database env fs sql_file true ts).1 = false ∧
      (import_local_database env fs sql_file true ts).2 =
        (ospJoin "/tmp" ("local-backup-" ++ ts ++ ".sql"), env.exportDump) :: fs ∧
      ((import_local_database env fs sql_file true ts).2.lookup
        (ospJoin "/tmp" ("local-backup-" ++ ts ++ ".sql"))) = some env.exportDump := by
  intro env fs sql_file ts hexp himp
  unfold import_local_database export_local_database
  rw [if_pos (show (true : Bool) = true from rfl)]
  dsimp only
  rw [if_pos hexp]
  dsimp only
  rw [if_neg (show ¬env.dbImportOk = true from by rw [himp]; exact fun h => Bool.noConfusion h)]
  refine ⟨rfl, rfl, ?_⟩
  simp [List.lookup_cons]

/-- Witness for `backup_survives_failed_import`. -/
theorem backup_survives_failed_import_witness :
    (import_local_database ⟨true, "dump-content", false⟩ [] "/tmp/db.sql" true "t1").1 = false ∧
    (import_local_database ⟨true, "dump-content", false⟩ [] "/tmp/db.sql" true "t1").2 =
      (ospJoin "/tmp" ("local-backup-" ++ "t1" ++ ".sql"), "dump-content") :: [] ∧
    ((import_local_database ⟨true, "dump-content", false⟩ [] "/tmp/db.sql" true "t1").2.lookup
      (ospJoin "/tmp" ("local-backup-" ++ "t1" ++ ".sql"))) = some "dump-content" :=
  backup_survives_failed_import ⟨true, "dump-content", false⟩ [] "/tmp/db.sql" "t1" rfl rfl

/-! ### Folder push/pull temporary archives

`PushController.push_folders` (push_controller.py lines 500-678) and
`PullController.pull_folders` (pull_controller.py lines 227-397),
restricted to the life of the per-folder temporary zip on each end.
The SFTP transfers go through paramiko `put`/`get` (wrapped by
`upload_file`/`download_file`, which absorb exceptions into failure
tuples): both create the destination file before transferring, so a
mid-transfer failure can leave a partial archive at the destination
path — the `…DebrisOnFail` flags say whether it did.  A raise inside
the local `zipfile` write may likewise leave a half-written archive,
which this handler removes when present.  The remote `zip` shell
invocation is modelled as all-or-nothing, and progress callbacks as
non-raising notifications. -/

/-- Whether the local temp-directory zip and the remote `/tmp` zip
exist. -/
structure TmpState where
  localZip : Bool
  remoteZip : Bool
deriving DecidableEq, Repr

/-- Outcomes of the external steps of one folder's push. -/
structure FolderPushEnv where
  localFolderExists : Bool
  localFolderIsDir : Bool
  zipCreateOk : Bool
  zipDebrisOnFail : Bool
  uploadOk : Bool
  uploadDebrisOnFail : Bool
  extractOk : Bool

/-- One folder of `push_folders`: compress locally, upload to `/tmp`,
extract remotely.  The upload-failure branch (lines 618-624) removes
only the local archive and issues no `rm -f` for the remote `/tmp`
file that a mid-transfer `put` failure may have left. -/
def pushFolderStep (env : FolderPushEnv) : TmpState × Bool :=
  if env.localFolderExists = false then (⟨false, false⟩, false)
  else if env.localFolderIsDir = false then (⟨false, false⟩, false)
  else if env.zipCreateOk = false then
    let afterRaise : TmpState := ⟨env.zipDebrisOnFail, false⟩
    ({ afterRaise with localZip := false }, false)
  else
    let made : TmpState := ⟨true, false⟩
    if env.uploadOk = false then
      let afterPut : TmpState := { made with remoteZip := env.uploadDebrisOnFail }
      ({ afterPut with localZip := false }, false)
    else
      let sent : TmpState := { made with remoteZip := true }
      if env.extractOk = false then
        ({ sent with remoteZip := false, localZip := false }, false)
      else
        ({ sent with remoteZip := false, localZip := false }, true)

/-- Outcomes of the external steps of one folder's pull. -/
structure FolderPullEnv where
  remoteFolderExists : Bool
  compressOk : Bool
  downloadOk : Bool
  downloadDebrisOnFail : Bool
  extractOk : Bool

/-- One folder of `pull_folders`: compress remotely into `/tmp`,
download to the temp directory, extract locally.  The download-failure
branch (lines 331-338) removes only the remote archive and never
deletes the local temp file that a mid-transfer `get` failure may have
left. -/
def pullFolderStep (env : FolderPullEnv) : TmpState × Bool :=
  if env.remoteFolderExists = false then (⟨false, false⟩, false)
  else if env.compressOk = false then (⟨false, false⟩, false)
  else
    let made : TmpState := ⟨false, true⟩
    if env.downloadOk = false then
      let afterGet : TmpState := { made with localZip := env.downloadDebrisOnFail }
      ({ afterGet with remoteZip := false }, false)
    else
      let got : TmpState := { made with localZip := true }
      if env.extractOk = false then
        ({ got with remoteZip := false, localZip := false }, false)
      else
        ({ got with remoteZip := false, localZip := false }, true)

/-- Counterexample to C8 as stated.  A push whose upload fails after
paramiko `put` created the remote `/tmp` file ends the folder's
processing with the remote archive still present (the branch at
push_controller.py lines 618-624 removes only the local copy); a pull
whose download fails after paramiko `get` created the local temp file
ends with the local archive still present (the branch at
pull_controller.py lines 331-338 removes only the remote copy). -/
theorem folder_zip_leak_counterexample :
    (pushFolderStep ⟨true, true, true, false, false, true, true⟩).1.remoteZip = true ∧
    (pullFolderStep ⟨true, true, false, true, true⟩).1.localZip = true := by
  decide

/-- C8, amended: by the end of a folder's processing the local
temp-directory zip of a push and the remote `/tmp` zip of a pull are
always gone, and the other end's archive is gone as well in every
outcome except one: a failed upload leaves exactly any partially
transferred remote `/tmp` archive behind, and a failed download leaves
exactly any partially transferred local temp archive behind.  The
equalities characterise the surviving archive completely. -/
theorem folder_zip_cleanup_spec :
    (∀ env : FolderPushEnv,
        (pushFolderStep env).1.localZip = false ∧
        (pushFolderStep env).1.remoteZip =
          (env.localFolderExists && env.localFolderIsDir && env.zipCreateOk &&
            !env.uploadOk && env.uploadDebrisOnFail)) ∧
    (∀ env : FolderPullEnv,
        (pullFolderStep env).1.remoteZip = false ∧
        (pullFolderStep env).1.localZip =
          (env.remoteFolderExists && env.compressOk && !env.downloadOk &&
            env.downloadDebrisOnFail)) := by
  constructor
  · intro env
    obtain ⟨a, b, c, d, e, f, g⟩ := env
    revert a b c d e f g
    decide
  · intro env
    obtain ⟨a, b, c, d, e⟩ := env
    revert a b c d e
    decide

end WpSync
